import Mathlib

/-!
Verification of the live-position reconciliation and adaptive-refresh engine of
`dondeestamitren` (src/app/static/js/train-detail.js and train-map.js).

JavaScript numbers are modelled as `ℚ` for the progress/scheduler code (whose
arithmetic is +, *, /, min, max on small values) and as `ℝ` for the geometric
code (which uses trigonometry).  `null`-able JavaScript values are modelled as
`Option`.  Each definition mirrors one function of the source.
-/

namespace DondeEstaMiTren

/-! ## Constants (train-detail.js, `TRAIN_DETAIL_INTERVALS` and friends) -/

structure IntervalTable where
  base : ℚ
  approaching : ℚ
  stopped : ℚ
  scheduled : ℚ
  stale : ℚ
  maxBackoff : ℚ
deriving Repr, DecidableEq

def TRAIN_DETAIL_INTERVALS : IntervalTable :=
  { base := 30000, approaching := 12000, stopped := 15000,
    scheduled := 30000, stale := 30000, maxBackoff := 120000 }

def TRAIN_PROGRESS_TICK : ℚ := 500

def PROGRESS_MIN_SLOPE_PPS : ℚ := 1 / 20

/-! ## Progress engine state (`panel.__trainAuto`, fields used by inference) -/

structure TrainAuto where
  anchorProgress : Option ℚ
  anchorTs : Option ℚ
  targetTs : Option ℚ
  progressSlopePerMs : Option ℚ
  progressCeil : Option ℚ
  inferredProgress : Option ℚ
  serverProgress : Option ℚ
  lastStopId : Option String
  baseInterval : ℚ
deriving Repr, DecidableEq

/-- The inference-relevant fields as initialised by `startTrainDetailAuto`. -/
def initTrainAuto : TrainAuto :=
  { anchorProgress := none, anchorTs := none, targetTs := none,
    progressSlopePerMs := none, progressCeil := none, inferredProgress := none,
    serverProgress := none, lastStopId := none,
    baseInterval := TRAIN_DETAIL_INTERVALS.base }

/-- The snapshot model fields read by `updateProgressInference`
(produced by `normalizeTrainPayload`; every numeric field has already gone
through `numberOrNull`, hence `Option ℚ`; `next_stop_id` holds `null` for a
falsy id, mirroring `model?.next_stop_id || null`). -/
structure Model where
  server_progress : Option ℚ
  next_stop_id : Option String
  status_key : String
  anchor_progress : Option ℚ
  anchor_ts : Option ℚ
  target_ts : Option ℚ
  is_stopped : Bool
deriving Repr, DecidableEq

/-- `String(x).toUpperCase()` as used on status keys (structural form of
`String.toUpper`, i.e. `Char.toUpper` applied to each character). -/
def jsToUpperCase (s : String) : String := String.mk (s.data.map Char.toUpper)

/-- `clampProgress` (train-detail.js line 701). -/
def clampProgress (p : ℚ) : ℚ := max 0 (min 100 p)

/-- `inferProgressAt(st, tsMs)` (train-detail.js lines 711-727).  Returns the
published value together with the updated state (the JS function mutates
`st.inferredProgress`).  `Number(st.progressSlopePerMs)` maps `null` to `0`,
hence `getD 0`. -/
def inferProgressAt (st : TrainAuto) (tsMs : ℚ) : Option ℚ × TrainAuto :=
  match st.anchorProgress, st.anchorTs with
  | some anchor, some anchorTs =>
      let slope := st.progressSlopePerMs.getD 0
      let delta := max 0 (tsMs - anchorTs)
      let v0 := anchor + delta * slope
      let v1 := match st.progressCeil with
        | some c => min v0 c
        | none => v0
      let val := clampProgress v1
      (some val, { st with inferredProgress := some val })
  | _, _ => (st.inferredProgress, st)

/-- `st.lastStopId && nextStopId && String(st.lastStopId) !== String(nextStopId)`
(train-detail.js line 747). -/
def segmentChanged (st : TrainAuto) (m : Model) : Bool :=
  match st.lastStopId, m.next_stop_id with
  | some a, some b => a != b
  | _, _ => false

/-- `numberOrNull(interp.anchor_progress) ?? serverProgress ?? 0`
(train-detail.js line 741). -/
def rawAnchorProgress (m : Model) : ℚ :=
  match m.anchor_progress with
  | some x => x
  | none =>
    match m.server_progress with
    | some x => x
    | none => 0

/-- The smoothing block of `updateProgressInference`
(train-detail.js lines 750-768): segment change accepts the raw value,
otherwise half-catch-up / damped correction / dead-band on
`diff = raw - currentInferred`. -/
def reconcileAnchor (currentInferred : Option ℚ) (segChanged : Bool) (raw : ℚ) : ℚ :=
  match currentInferred with
  | none => raw
  | some cur =>
    if segChanged then raw
    else
      let diff := raw - cur
      if 0 < diff then cur + diff * (1 / 2)
      else if diff < -5 then cur + diff * (3 / 10)
      else cur

/-- `anchorTsSec ? anchorTsSec * 1000 : nowMs` (train-detail.js line 782);
`0` is falsy in JS. -/
def anchorTsMsOf (m : Model) (nowMs : ℚ) : ℚ :=
  match m.anchor_ts with
  | some t => if t = 0 then nowMs else t * 1000
  | none => nowMs

/-- `targetTsSec ? targetTsSec * 1000 : anchorTsMs + (st.baseInterval || base)`
(train-detail.js line 783). -/
def targetTsMsOf (m : Model) (anchorTsMs baseInterval : ℚ) : ℚ :=
  match m.target_ts with
  | some t =>
      if t = 0 then
        anchorTsMs + (if baseInterval = 0 then TRAIN_DETAIL_INTERVALS.base else baseInterval)
      else t * 1000
  | none => anchorTsMs + (if baseInterval = 0 then TRAIN_DETAIL_INTERVALS.base else baseInterval)

/-- The slope computation of `updateProgressInference`
(train-detail.js lines 791-799). -/
def slopeFor (statusKey : String) (isTrainStopped : Bool)
    (newAnchor anchorTsMs targetTsMs : ℚ) : ℚ :=
  if (statusKey == "IN_TRANSIT_TO" || statusKey == "INCOMING_AT") && !isTrainStopped then
    let denomMs := max 500 (targetTsMs - anchorTsMs)
    let s1 := (100 - newAnchor) / denomMs
    let s2 := if s1 < 0 then 0 else s1
    let minSlope := PROGRESS_MIN_SLOPE_PPS / 1000
    if 0 < s2 && s2 < minSlope then minSlope else s2
  else 0

/-- `updateProgressInference(panel, model)` (train-detail.js lines 729-807),
with `nowMs = Date.now()` passed explicitly.  Returns the published value and
the updated `__trainAuto` state. -/
def updateProgressInference (st : TrainAuto) (m : Model) (nowMs : ℚ) : Option ℚ × TrainAuto :=
  let serverProgress := m.server_progress
  let statusKey := jsToUpperCase m.status_key
  let res := inferProgressAt st nowMs
  let st1 := res.2
  let anchorProgress1 := reconcileAnchor res.1 (segmentChanged st m) (rawAnchorProgress m)
  if statusKey == "STOPPED_AT" then
    let aMs := anchorTsMsOf m nowMs
    (some 0,
      { st1 with
        anchorProgress := some 0,
        anchorTs := some aMs,
        targetTs := some aMs,
        progressSlopePerMs := some 0,
        progressCeil := some 0,
        serverProgress := (match serverProgress with
          | some s => some s
          | none => st1.serverProgress),
        inferredProgress := some 0,
        lastStopId := (match m.next_stop_id with
          | some s => some s
          | none => st1.lastStopId) })
  else
    let aMs := anchorTsMsOf m nowMs
    let tMs := targetTsMsOf m aMs st1.baseInterval
    let newAnchor := clampProgress anchorProgress1
    let slope := slopeFor statusKey m.is_stopped newAnchor aMs tMs
    let st2 :=
      { st1 with
        anchorProgress := some newAnchor,
        anchorTs := some aMs,
        targetTs := some tMs,
        serverProgress := (match serverProgress with
          | some s => some s
          | none => st1.serverProgress),
        progressCeil := some (95 : ℚ),
        progressSlopePerMs := some slope }
    let res2 := inferProgressAt st2 nowMs
    let st3 :=
      { res2.2 with
        inferredProgress := res2.1,
        lastStopId := (match m.next_stop_id with
          | some s => some s
          | none => res2.2.lastStopId) }
    (res2.1, st3)

/-! ## Adaptive polling interval (`nextTrainDetailInterval`, lines 549-564) -/

/-- `nextTrainDetailInterval(model, panel)` with the resolved `kind`
(`(model && model.train_kind) || panel?.dataset?.trainKind || 'live'`) passed
as an argument. -/
def nextTrainDetailInterval (kind status_key : String)
    (progress seenAge : Option ℚ) : ℚ :=
  if kind ≠ "live" then TRAIN_DETAIL_INTERVALS.scheduled
  else
    let status := jsToUpperCase status_key
    if status == "INCOMING_AT" then TRAIN_DETAIL_INTERVALS.approaching
    else if status == "STOPPED_AT" then TRAIN_DETAIL_INTERVALS.stopped
    else if (match progress with | some p => decide (70 ≤ p) | none => false) then
      TRAIN_DETAIL_INTERVALS.approaching
    else if (match seenAge with | some a => decide (180 < a) | none => false) then
      TRAIN_DETAIL_INTERVALS.stale
    else TRAIN_DETAIL_INTERVALS.base

/-! ## Refresh scheduling, failures and backoff (`refreshTrainDetail`, lines 566-627) -/

/-- The outcome of one `refreshTrainDetail` fetch: a successful response
(described by the interval-selection inputs of the resulting model plus the
random jitter drawn on line 611) or a failure (network error / non-2xx /
abort; `kindScheduled` is `panel.dataset.trainKind === 'scheduled'`). -/
inductive FetchOutcome where
  | success (kind status_key : String) (progress seenAge : Option ℚ) (jitter : ℚ)
  | failure (kindScheduled : Bool)
deriving Repr, DecidableEq

/-- One pass of the scheduling tail of `refreshTrainDetail` (lines 608-622):
given the current `st.errors` counter and a fetch outcome, the new counter and
the delay passed to `scheduleTrainDetailTick`. -/
def refreshScheduleStep (errors : ℕ) : FetchOutcome → ℕ × ℚ
  | .success kind status_key progress seenAge jitter =>
      (0, nextTrainDetailInterval kind status_key progress seenAge + jitter)
  | .failure kindScheduled =>
      let e := min (errors + 1) 6
      let backoffBase := if kindScheduled then TRAIN_DETAIL_INTERVALS.scheduled
        else TRAIN_DETAIL_INTERVALS.base
      (e, min (backoffBase * 2 ^ (e - 1)) TRAIN_DETAIL_INTERVALS.maxBackoff)

/-- Error counter and last scheduled delay after `k` consecutive failures,
starting from a reset counter (`st.errors = 0`). -/
def afterKFailures (kindScheduled : Bool) : ℕ → ℕ × ℚ
  | 0 => (0, 0)
  | k + 1 => refreshScheduleStep (afterKFailures kindScheduled k).1 (.failure kindScheduled)

/-! ## Visibility handling (`stopTrainDetailAuto` lines 501-509,
`scheduleTrainDetailTick` lines 511-516, `refreshTrainDetail` lines 566-584,
`startTrainDetailAuto` lines 629-663,
`bindTrainDetailVisibilityHandler` lines 819-830) -/

/-- The scheduling-relevant fields of `panel.__trainAuto`. -/
structure SchedState where
  running : Bool
  timerArmed : Bool
  timerDelay : ℚ
  inFlight : Bool
  errors : ℕ
  baseInterval : ℚ
deriving Repr, DecidableEq

/-- `stopTrainDetailAuto(panel)`: clear the refresh timer, abort any in-flight
fetch, stop running. -/
def stopTrainDetailAutoStep (st : SchedState) : SchedState :=
  { st with timerArmed := false, running := false, inFlight := false }

/-- `scheduleTrainDetailTick(panel, ms)`: arm the refresh timer for `ms`
(only while running). -/
def scheduleTrainDetailTickStep (st : SchedState) (ms : ℚ) : SchedState :=
  if !st.running then st else { st with timerArmed := true, timerDelay := ms }

/-- The synchronous head of `refreshTrainDetail(panel)` (lines 566-589), up to
issuing the fetch, for a connected panel with an API URL.  The returned `Bool`
is true when a fetch was issued.  While `document.hidden`, the code re-arms the
timer at `st.baseInterval || TRAIN_DETAIL_INTERVALS.base` instead of fetching. -/
def refreshTrainDetailEntry (hidden : Bool) (st : SchedState) : SchedState × Bool :=
  if !st.running then (st, false)
  else if hidden then
    (scheduleTrainDetailTickStep st
      (if st.baseInterval = 0 then TRAIN_DETAIL_INTERVALS.base else st.baseInterval), false)
  else ({ st with inFlight := true }, true)

/-- `startTrainDetailAuto(panel)` (scheduling part, lines 651-662): no-op if
already running; otherwise start, reset errors, and either arm the timer (when
hidden) or refresh immediately. -/
def startTrainDetailAutoStep (hidden : Bool) (st : SchedState) : SchedState × Bool :=
  if st.running then (st, false)
  else
    let st1 := { st with running := true, errors := 0 }
    if hidden then (scheduleTrainDetailTickStep st1 st1.baseInterval, false)
    else refreshTrainDetailEntry hidden st1

/-- The `visibilitychange` handler of `bindTrainDetailVisibilityHandler`
(lines 822-829) for one panel with `__trainAuto` present: stop on hide, start
on show. -/
def visibilityChangeStep (hidden : Bool) (st : SchedState) : SchedState × Bool :=
  if hidden then (stopTrainDetailAutoStep st, false)
  else startTrainDetailAutoStep false st

/-! ## Route geometry (train-map.js).  Coordinates are `(lon, lat)` pairs of
reals, mirroring the `[lon, lat]` arrays of the source; JavaScript `Math`
trigonometry is modelled over `ℝ`. -/

noncomputable section

/-- `Math.atan2(y, x)`. -/
def atan2 (y x : ℝ) : ℝ :=
  if 0 < x then Real.arctan (y / x)
  else if x < 0 then
    (if 0 ≤ y then Real.arctan (y / x) + Real.pi else Real.arctan (y / x) - Real.pi)
  else if 0 < y then Real.pi / 2
  else if y < 0 then -(Real.pi / 2)
  else 0

/-- `deg * Math.PI / 180` (the `toRad` helper inside `haversineM`). -/
def toRad (deg : ℝ) : ℝ := deg * Real.pi / 180

/-- `haversineM(lat1, lon1, lat2, lon2)` (train-map.js lines 21-29). -/
def haversineM (lat1 lon1 lat2 lon2 : ℝ) : ℝ :=
  let R : ℝ := 6371000
  let dLat := toRad (lat2 - lat1)
  let dLon := toRad (lon2 - lon1)
  let a := Real.sin (dLat / 2) ^ 2
    + Real.cos (toRad lat1) * Real.cos (toRad lat2) * Real.sin (dLon / 2) ^ 2
  2 * R * atan2 (Real.sqrt a) (Real.sqrt (1 - a))

/-- `clamp01` (train-map.js lines 12-14). -/
def clamp01 (x : ℝ) : ℝ := max 0 (min 1 x)

/-- A path point `[lon, lat]`. -/
abbrev Pt := ℝ × ℝ

/-- `projectFraction(a, b, p)` (train-map.js lines 31-38). -/
def projectFraction (a b p : Pt) : ℝ :=
  let dx := b.1 - a.1
  let dy := b.2 - a.2
  let denom := dx * dx + dy * dy
  if denom ≤ 0 then 0
  else clamp01 (((p.1 - a.1) * dx + (p.2 - a.2) * dy) / denom)

/-- The route index built by `buildRouteCtx` (train-map.js lines 79-116);
`stopIndex` is omitted (not consumed by the round-trip pair). -/
structure RouteCtx where
  coords : List Pt
  cumLengths : List ℝ
  totalLength : ℝ

/-- The cumulative-length loop of `buildRouteCtx` (lines 83-89):
`cumLengths[i] = cumLengths[i-1] + haversineM(...)` for `i ≥ 1`. -/
def cumLengthsFrom (prev : ℝ) : Pt → List Pt → List ℝ
  | _, [] => []
  | a, b :: rest =>
      let c := prev + haversineM a.2 a.1 b.2 b.1
      c :: cumLengthsFrom c b rest

/-- `cumLengths` of `buildRouteCtx`: starts at `[0]`, then the summation loop. -/
def cumLengthsOf (coords : List Pt) : List ℝ :=
  0 :: (match coords with
    | [] => []
    | a :: rest => cumLengthsFrom 0 a rest)

/-- `buildRouteCtx(routeData, _)` on an already-extracted coordinate list
(lines 79-96): `null` for fewer than 2 points, otherwise coords, cumulative
lengths, and `totalLength = cumLengths[last] || 0`. -/
def buildRouteCtx (coords : List Pt) : Option RouteCtx :=
  if coords.length < 2 then none
  else
    let len := cumLengthsOf coords
    some ⟨coords, len, len.getLastD 0⟩

/-- One candidate of the `projectOnRoute` loop body (lines 121-139). -/
structure RouteProj where
  idx : ℕ
  t : ℝ
  distance : ℝ
  coord : Pt
  err : ℝ

/-- The body of the `projectOnRoute` loop for segment `i` (lines 122-130):
clamped projection fraction, foot coordinates, haversine residual, and
distance-along-path. -/
def projSegment (ctx : RouteCtx) (p : Pt) (i : ℕ) : RouteProj :=
  let a := ctx.coords.getD i (0, 0)
  let b := ctx.coords.getD (i + 1) (0, 0)
  let t := projectFraction a b p
  let projLon := a.1 + (b.1 - a.1) * t
  let projLat := a.2 + (b.2 - a.2) * t
  let distToSeg := haversineM p.2 p.1 projLat projLon
  let segLen := ctx.cumLengths.getD (i + 1) 0 - ctx.cumLengths.getD i 0
  let along := ctx.cumLengths.getD i 0 + segLen * t
  ⟨i, t, along, (projLon, projLat), distToSeg⟩

/-- The best-candidate fold of `projectOnRoute` (`if (!best || distToSeg <
best.err) best = ...`, line 131), over segment indices in order. -/
def projectFold (ctx : RouteCtx) (p : Pt) (best : Option RouteProj) :
    List ℕ → Option RouteProj
  | [] => best
  | i :: rest =>
      let cand := projSegment ctx p i
      let best' := match best with
        | none => some cand
        | some b => if cand.err < b.err then some cand else some b
      projectFold ctx p best' rest

/-- `projectOnRoute(ctx, point)` (train-map.js lines 118-142). -/
def projectOnRoute (ctx : RouteCtx) (p : Pt) : Option RouteProj :=
  if ctx.coords.length < 2 then none
  else projectFold ctx p none (List.range (ctx.coords.length - 1))

/-- The bracketing scan of `coordAtDistance`
(`while (i < len.length - 1 && len[i + 1] < target) i += 1`, lines 148-151). -/
def bracketLoop (len : List ℝ) (target : ℝ) (i : ℕ) : ℕ :=
  if h : i < len.length - 1 ∧ len.getD (i + 1) 0 < target then
    bracketLoop len target (i + 1)
  else i
termination_by len.length - 1 - i
decreasing_by omega

/-- The segment index used by `coordAtDistance` for a given distance, including
the `if (i >= ctx.coords.length - 1) i = ctx.coords.length - 2` fallback
(line 152). -/
def bracketIndex (ctx : RouteCtx) (distance : ℝ) : ℕ :=
  let target := max 0 (min distance ctx.totalLength)
  let i0 := bracketLoop ctx.cumLengths target 0
  if ctx.coords.length - 1 ≤ i0 then ctx.coords.length - 2 else i0

/-- `coordAtDistance(ctx, distance)` (train-map.js lines 144-161). -/
def coordAtDistance (ctx : RouteCtx) (distance : ℝ) : Option Pt :=
  if ctx.coords.length < 2 then none
  else
    let target := max 0 (min distance ctx.totalLength)
    let len := ctx.cumLengths
    let i := bracketIndex ctx distance
    let a := ctx.coords.getD i (0, 0)
    let b := ctx.coords.getD (i + 1) (0, 0)
    let segLen := len.getD (i + 1) 0 - len.getD i 0
    let segT := if 0 < segLen then (target - len.getD i 0) / segLen else 0
    some (a.1 + (b.1 - a.1) * segT, a.2 + (b.2 - a.2) * segT)

/-- The squared planar length of segment `i` (the `denom` of
`projectFraction` for that segment's endpoints). -/
def segDenom (ctx : RouteCtx) (i : ℕ) : ℝ :=
  let a := ctx.coords.getD i (0, 0)
  let b := ctx.coords.getD (i + 1) (0, 0)
  (b.1 - a.1) * (b.1 - a.1) + (b.2 - a.2) * (b.2 - a.2)

/-- The arc length `cumLengths[i+1] - cumLengths[i]` of segment `i`. -/
def segLenAt (ctx : RouteCtx) (i : ℕ) : ℝ :=
  ctx.cumLengths.getD (i + 1) 0 - ctx.cumLengths.getD i 0

end

/-! ## Basic lemmas about the progress engine -/

theorem clampProgress_nonneg (p : ℚ) : 0 ≤ clampProgress p := le_max_left 0 _

theorem clampProgress_le_100 (p : ℚ) : clampProgress p ≤ 100 := by
  unfold clampProgress
  rcases le_total 100 p with h | h
  · rw [min_eq_left h]
    norm_num
  · rw [min_eq_right h]
    exact max_le (by norm_num) h

theorem clampProgress_eq_self {p : ℚ} (h0 : 0 ≤ p) (h1 : p ≤ 100) :
    clampProgress p = p := by
  unfold clampProgress
  rw [min_eq_right h1, max_eq_right h0]

theorem clampProgress_mono {p q : ℚ} (h : p ≤ q) :
    clampProgress p ≤ clampProgress q :=
  max_le_max le_rfl (min_le_min le_rfl h)

theorem inferProgressAt_fields (st : TrainAuto) (t : ℚ) :
    ((inferProgressAt st t).2.anchorProgress = st.anchorProgress ∧
      (inferProgressAt st t).2.anchorTs = st.anchorTs ∧
      (inferProgressAt st t).2.progressSlopePerMs = st.progressSlopePerMs ∧
      (inferProgressAt st t).2.progressCeil = st.progressCeil ∧
      (inferProgressAt st t).2.serverProgress = st.serverProgress ∧
      (inferProgressAt st t).2.lastStopId = st.lastStopId ∧
      (inferProgressAt st t).2.baseInterval = st.baseInterval) := by
  unfold inferProgressAt
  rcases ha : st.anchorProgress with _ | a <;> rcases hts : st.anchorTs with _ | ts <;>
    simp [ha, hts]

theorem inferProgressAt_of_anchor {st : TrainAuto} {a ts : ℚ} (t : ℚ)
    (ha : st.anchorProgress = some a) (hts : st.anchorTs = some ts) :
    (inferProgressAt st t).1 =
      some (clampProgress (match st.progressCeil with
        | some c => min (a + max 0 (t - ts) * st.progressSlopePerMs.getD 0) c
        | none => a + max 0 (t - ts) * st.progressSlopePerMs.getD 0)) := by
  unfold inferProgressAt
  rw [ha, hts]

/-! ## C1: the STOPPED_AT transition -/

/-- C1 (amended): whenever the snapshot's status key is `STOPPED_AT`, the
reconciler forces the anchor to 0 (not to the arrived value), forces the rate
to 0, forces the ceiling to that same value 0, publishes 0, and does so
regardless of the prior anchor, rate or any other reconciliation rule. -/
theorem stopped_forces_zero (st : TrainAuto) (m : Model) (nowMs : ℚ)
    (h : jsToUpperCase m.status_key = "STOPPED_AT") :
    ((updateProgressInference st m nowMs).1 = some 0 ∧
      (updateProgressInference st m nowMs).2.anchorProgress = some 0 ∧
      (updateProgressInference st m nowMs).2.progressSlopePerMs = some 0 ∧
      (updateProgressInference st m nowMs).2.progressCeil = some 0 ∧
      (updateProgressInference st m nowMs).2.targetTs =
        (updateProgressInference st m nowMs).2.anchorTs) := by
  unfold updateProgressInference
  simp [h]

/-- Concrete witness for `stopped_forces_zero`. -/
def stW1 : TrainAuto :=
  { initTrainAuto with
    anchorProgress := some 40
    anchorTs := some 0
    progressSlopePerMs := some (1 / 600)
    progressCeil := some 95
    lastStopId := some "S" }

/-- Concrete witness snapshot for `stopped_forces_zero`: stopped with the
server still reporting 80% progress. -/
def mW1 : Model :=
  { server_progress := some 80, next_stop_id := some "S",
    status_key := "STOPPED_AT", anchor_progress := some 80,
    anchor_ts := none, target_ts := none, is_stopped := true }

theorem stopped_forces_zero_witness :
    (jsToUpperCase mW1.status_key = "STOPPED_AT" ∧
      ((updateProgressInference stW1 mW1 1000).1 = some 0 ∧
        (updateProgressInference stW1 mW1 1000).2.anchorProgress = some 0 ∧
        (updateProgressInference stW1 mW1 1000).2.progressSlopePerMs = some 0 ∧
        (updateProgressInference stW1 mW1 1000).2.progressCeil = some 0 ∧
        (updateProgressInference stW1 mW1 1000).2.targetTs =
          (updateProgressInference stW1 mW1 1000).2.anchorTs)) :=
  ⟨by decide, stopped_forces_zero stW1 mW1 1000 (by decide)⟩

/-- C1 counterexample to the claim as stated: on a `STOPPED_AT` snapshot with
the server at 80%, the published estimate is 0, not the arrived value 100
(1.0 on a 0-1 scale). -/
theorem stopped_not_arrived_cex :
    ((updateProgressInference stW1 mW1 1000).1 = some 0 ∧
      (0 : ℚ) ≠ 100 ∧ mW1.server_progress = some 80) := by
  refine ⟨?_, by norm_num, rfl⟩
  unfold updateProgressInference
  simp [show jsToUpperCase mW1.status_key = "STOPPED_AT" from by decide]

/-! ## The non-stopped reconciliation step, in closed form -/

/-- The anchor value `clampProgress(anchorProgress)` stored by a non-stopped
`updateProgressInference` step. -/
def newAnchorOf (st : TrainAuto) (m : Model) (nowMs : ℚ) : ℚ :=
  clampProgress (reconcileAnchor (inferProgressAt st nowMs).1
    (segmentChanged st m) (rawAnchorProgress m))

/-- The slope stored by a non-stopped `updateProgressInference` step. -/
def newSlopeOf (st : TrainAuto) (m : Model) (nowMs : ℚ) : ℚ :=
  slopeFor (jsToUpperCase m.status_key) m.is_stopped (newAnchorOf st m nowMs)
    (anchorTsMsOf m nowMs)
    (targetTsMsOf m (anchorTsMsOf m nowMs) st.baseInterval)

theorem update_not_stopped (st : TrainAuto) (m : Model) (nowMs : ℚ)
    (hstat : jsToUpperCase m.status_key ≠ "STOPPED_AT") :
    ((updateProgressInference st m nowMs).2.anchorProgress =
        some (newAnchorOf st m nowMs) ∧
      (updateProgressInference st m nowMs).2.anchorTs = some (anchorTsMsOf m nowMs) ∧
      (updateProgressInference st m nowMs).2.progressCeil = some 95 ∧
      (updateProgressInference st m nowMs).2.progressSlopePerMs =
        some (newSlopeOf st m nowMs) ∧
      (updateProgressInference st m nowMs).2.baseInterval = st.baseInterval ∧
      (updateProgressInference st m nowMs).2.lastStopId =
        (match m.next_stop_id with | some s => some s | none => st.lastStopId) ∧
      (updateProgressInference st m nowMs).1 =
        some (clampProgress (min
          (newAnchorOf st m nowMs +
            max 0 (nowMs - anchorTsMsOf m nowMs) * newSlopeOf st m nowMs) 95))) := by
  have hb : (jsToUpperCase m.status_key == "STOPPED_AT") = false :=
    beq_eq_false_iff_ne.mpr hstat
  have hf := inferProgressAt_fields st nowMs
  unfold updateProgressInference newAnchorOf newSlopeOf
  simp only [hb, Bool.false_eq_true, if_false, hf.1, hf.2.1, hf.2.2.1, hf.2.2.2.1,
    hf.2.2.2.2.1, hf.2.2.2.2.2.1, hf.2.2.2.2.2.2]
  simp [inferProgressAt, clampProgress, newAnchorOf]

theorem reconcileAnchor_segChanged (o : Option ℚ) (raw : ℚ) :
    reconcileAnchor o true raw = raw := by
  cases o <;> simp [reconcileAnchor]

theorem reconcileAnchor_keep {cur raw : ℚ} (hhi : raw - cur ≤ 0)
    (hlo : -5 ≤ raw - cur) : reconcileAnchor (some cur) false raw = cur := by
  simp only [reconcileAnchor, Bool.false_eq_true, if_false]
  rw [if_neg (not_lt.mpr hhi), if_neg (not_lt.mpr hlo)]

theorem reconcileAnchor_catchup {cur raw : ℚ} (hdiff : 0 < raw - cur) :
    reconcileAnchor (some cur) false raw = cur + (raw - cur) * (1 / 2) := by
  simp only [reconcileAnchor, Bool.false_eq_true, if_false]
  rw [if_pos hdiff]

theorem reconcileAnchor_correction {cur raw : ℚ} (h : raw - cur < -5) :
    reconcileAnchor (some cur) false raw = cur + (raw - cur) * (3 / 10) := by
  simp only [reconcileAnchor, Bool.false_eq_true, if_false]
  rw [if_neg (not_lt.mpr (le_of_lt (lt_trans h (by norm_num)))), if_pos h]

/-! ## C2: the dead-band -/

/-- C2 (amended): the dead-band only covers the non-positive side.  For an
accepted non-stopped snapshot with unchanged segment whose raw server value is
at or below the local estimate by at most 5 points (`-5 ≤ diff ≤ 0`), the
local estimate is kept unchanged as the new anchor, and (when the snapshot
carries no anchor timestamp of its own) the published value is unchanged.
A raw value *above* the local estimate is never dead-banded (see the
counterexample): it gets the half-catch-up of C4. -/
theorem deadband_nonpositive_only (st : TrainAuto) (m : Model) (nowMs cur : ℚ)
    (hstat : jsToUpperCase m.status_key ≠ "STOPPED_AT")
    (hseg : segmentChanged st m = false)
    (hcur : (inferProgressAt st nowMs).1 = some cur)
    (h0 : 0 ≤ cur) (h95 : cur ≤ 95)
    (hlo : -5 ≤ rawAnchorProgress m - cur)
    (hhi : rawAnchorProgress m - cur ≤ 0) :
    ((updateProgressInference st m nowMs).2.anchorProgress = some cur ∧
      (m.anchor_ts = none → (updateProgressInference st m nowMs).1 = some cur)) := by
  have h100 : cur ≤ 100 := le_trans h95 (by norm_num)
  have hrec : reconcileAnchor (inferProgressAt st nowMs).1
      (segmentChanged st m) (rawAnchorProgress m) = cur := by
    rw [hcur, hseg, reconcileAnchor_keep hhi hlo]
  have hanchor : newAnchorOf st m nowMs = cur := by
    rw [newAnchorOf, hrec, clampProgress_eq_self h0 h100]
  have hu := update_not_stopped st m nowMs hstat
  refine ⟨by rw [hu.1, hanchor], fun hts => ?_⟩
  have hams : anchorTsMsOf m nowMs = nowMs := by simp [anchorTsMsOf, hts]
  rw [hu.2.2.2.2.2.2, hanchor, hams]
  have : max 0 (nowMs - nowMs) = 0 := by simp
  rw [this, zero_mul, add_zero, min_eq_left h95, clampProgress_eq_self h0 h100]

def stW2 : TrainAuto :=
  { initTrainAuto with
    anchorProgress := some 50
    anchorTs := some 1000
    progressSlopePerMs := some 0
    progressCeil := some 95
    lastStopId := some "S" }

/-- Witness snapshot for `deadband_nonpositive_only`: raw 47 against a local
estimate of 50 (diff = -3, within the dead-band). -/
def mW2 : Model :=
  { server_progress := some 47, next_stop_id := some "S",
    status_key := "IN_TRANSIT_TO", anchor_progress := some 47,
    anchor_ts := none, target_ts := none, is_stopped := false }

theorem deadband_nonpositive_only_witness :
    (jsToUpperCase mW2.status_key ≠ "STOPPED_AT" ∧
      segmentChanged stW2 mW2 = false ∧
      (inferProgressAt stW2 1000).1 = some 50 ∧
      (0 : ℚ) ≤ 50 ∧ (50 : ℚ) ≤ 95 ∧
      -5 ≤ rawAnchorProgress mW2 - 50 ∧ rawAnchorProgress mW2 - 50 ≤ 0 ∧
      ((updateProgressInference stW2 mW2 1000).2.anchorProgress = some 50 ∧
        (mW2.anchor_ts = none → (updateProgressInference stW2 mW2 1000).1 = some 50))) := by
  have h1 : jsToUpperCase mW2.status_key ≠ "STOPPED_AT" := by decide
  have h2 : segmentChanged stW2 mW2 = false := by decide
  have h3 : (inferProgressAt stW2 1000).1 = some 50 := by
    norm_num [inferProgressAt, stW2, initTrainAuto, clampProgress]
  have h6 : -5 ≤ rawAnchorProgress mW2 - 50 := by norm_num [rawAnchorProgress, mW2]
  have h7 : rawAnchorProgress mW2 - 50 ≤ 0 := by norm_num [rawAnchorProgress, mW2]
  exact ⟨h1, h2, h3, by norm_num, by norm_num, h6, h7,
    deadband_nonpositive_only stW2 mW2 1000 50 h1 h2 h3 (by norm_num) (by norm_num) h6 h7⟩

/-- Auxiliary state for the C2 counterexample: local estimate 50. -/
def stX2 : TrainAuto :=
  { initTrainAuto with
    anchorProgress := some 50
    anchorTs := some 1000
    progressSlopePerMs := some 0
    progressCeil := some 95
    lastStopId := some "S" }

/-- Counterexample snapshot for C2: raw 52, only 2 points above the local
estimate of 50 (|diff| ≤ 5), same segment. -/
def mX2 : Model :=
  { server_progress := some 52, next_stop_id := some "S",
    status_key := "IN_TRANSIT_TO", anchor_progress := some 52,
    anchor_ts := none, target_ts := none, is_stopped := false }

/-- C2 counterexample: a snapshot 2 points *ahead* of the local estimate is
within the claimed symmetric dead-band, yet the reconciler moves the anchor to
51 (half-catch-up) instead of keeping 50. -/
theorem deadband_positive_cex :
    ((inferProgressAt stX2 1000).1 = some 50 ∧
      rawAnchorProgress mX2 = 52 ∧
      segmentChanged stX2 mX2 = false ∧
      (updateProgressInference stX2 mX2 1000).2.anchorProgress = some 51 ∧
      (51 : ℚ) ≠ 50) := by
  have hcur : (inferProgressAt stX2 1000).1 = some 50 := by
    norm_num [inferProgressAt, stX2, initTrainAuto, clampProgress]
  have hseg : segmentChanged stX2 mX2 = false := by decide
  have hraw : rawAnchorProgress mX2 = 52 := rfl
  refine ⟨hcur, hraw, hseg, ?_, by norm_num⟩
  rw [(update_not_stopped stX2 mX2 1000 (by decide)).1, newAnchorOf, hcur, hseg,
    hraw, reconcileAnchor_catchup (by norm_num)]
  norm_num [clampProgress]

/-! ## C4: half-catch-up -/

/-- C4: for an accepted non-stopped snapshot with unchanged segment whose raw
value lies above the local estimate (`diff > 0`), the new anchor is
`v_local + diff * 0.5`. -/
theorem half_catchup (st : TrainAuto) (m : Model) (nowMs cur : ℚ)
    (hstat : jsToUpperCase m.status_key ≠ "STOPPED_AT")
    (hseg : segmentChanged st m = false)
    (hcur : (inferProgressAt st nowMs).1 = some cur)
    (h0 : 0 ≤ cur)
    (hdiff : 0 < rawAnchorProgress m - cur)
    (hraw : rawAnchorProgress m ≤ 100) :
    (updateProgressInference st m nowMs).2.anchorProgress =
      some (cur + (rawAnchorProgress m - cur) * (1 / 2)) := by
  have hrec : reconcileAnchor (inferProgressAt st nowMs).1
      (segmentChanged st m) (rawAnchorProgress m) =
      cur + (rawAnchorProgress m - cur) * (1 / 2) := by
    rw [hcur, hseg, reconcileAnchor_catchup hdiff]
  have hmem0 : 0 ≤ cur + (rawAnchorProgress m - cur) * (1 / 2) := by linarith
  have hmem1 : cur + (rawAnchorProgress m - cur) * (1 / 2) ≤ 100 := by linarith
  rw [(update_not_stopped st m nowMs hstat).1, newAnchorOf, hrec,
    clampProgress_eq_self hmem0 hmem1]

def stW4 : TrainAuto :=
  { initTrainAuto with
    anchorProgress := some 40
    anchorTs := some 1000
    progressSlopePerMs := some 0
    progressCeil := some 95
    lastStopId := some "S" }

/-- Witness snapshot for `half_catchup`: the spec's own example, local estimate
40 (0.40) and raw 55 (0.55) on the same segment. -/
def mW4 : Model :=
  { server_progress := some 55, next_stop_id := some "S",
    status_key := "IN_TRANSIT_TO", anchor_progress := some 55,
    anchor_ts := none, target_ts := none, is_stopped := false }

theorem half_catchup_witness :
    (jsToUpperCase mW4.status_key ≠ "STOPPED_AT" ∧
      segmentChanged stW4 mW4 = false ∧
      (inferProgressAt stW4 1000).1 = some 40 ∧
      (0 : ℚ) < rawAnchorProgress mW4 - 40 ∧ rawAnchorProgress mW4 ≤ 100 ∧
      (updateProgressInference stW4 mW4 1000).2.anchorProgress =
        some (40 + (rawAnchorProgress mW4 - 40) * (1 / 2)) ∧
      (40 : ℚ) + (rawAnchorProgress mW4 - 40) * (1 / 2) = 95 / 2 ∧
      (95 / 2 : ℚ) ≠ 55) := by
  have h1 : jsToUpperCase mW4.status_key ≠ "STOPPED_AT" := by decide
  have h2 : segmentChanged stW4 mW4 = false := by decide
  have h3 : (inferProgressAt stW4 1000).1 = some 40 := by
    norm_num [inferProgressAt, stW4, initTrainAuto, clampProgress]
  have h4 : (0 : ℚ) < rawAnchorProgress mW4 - 40 := by
    norm_num [rawAnchorProgress, mW4]
  have h5 : rawAnchorProgress mW4 ≤ 100 := by norm_num [rawAnchorProgress, mW4]
  exact ⟨h1, h2, h3, h4, h5,
    half_catchup stW4 mW4 1000 40 h1 h2 h3 (by norm_num) h4 h5,
    by norm_num [rawAnchorProgress, mW4], by norm_num⟩

/-! ## C5: segment change accepts the raw value verbatim -/

/-- C5: a non-stopped snapshot whose destination waypoint differs from the
previous one is accepted verbatim as the new anchor — no damping, no
dead-band — regardless of the current local estimate (in particular even when
this decreases the value). -/
theorem segment_change_accepts_raw (st : TrainAuto) (m : Model) (nowMs : ℚ)
    (a b : String)
    (hstat : jsToUpperCase m.status_key ≠ "STOPPED_AT")
    (ha : st.lastStopId = some a) (hb : m.next_stop_id = some b) (hne : a ≠ b)
    (h0 : 0 ≤ rawAnchorProgress m) (h100 : rawAnchorProgress m ≤ 100) :
    (updateProgressInference st m nowMs).2.anchorProgress =
      some (rawAnchorProgress m) := by
  have hseg : segmentChanged st m = true := by
    simp [segmentChanged, ha, hb, hne]
  rw [(update_not_stopped st m nowMs hstat).1, newAnchorOf, hseg,
    reconcileAnchor_segChanged, clampProgress_eq_self h0 h100]

def stW5 : TrainAuto :=
  { initTrainAuto with
    anchorProgress := some 50
    anchorTs := some 1000
    progressSlopePerMs := some 0
    progressCeil := some 95
    lastStopId := some "S" }

/-- Witness snapshot for `segment_change_accepts_raw`: new destination "T",
raw value 10 — far below the local estimate of 50. -/
def mW5 : Model :=
  { server_progress := some 10, next_stop_id := some "T",
    status_key := "IN_TRANSIT_TO", anchor_progress := some 10,
    anchor_ts := none, target_ts := none, is_stopped := false }

theorem segment_change_accepts_raw_witness :
    (jsToUpperCase mW5.status_key ≠ "STOPPED_AT" ∧
      stW5.lastStopId = some "S" ∧ mW5.next_stop_id = some "T" ∧
      ("S" : String) ≠ "T" ∧
      (0 : ℚ) ≤ rawAnchorProgress mW5 ∧ rawAnchorProgress mW5 ≤ 100 ∧
      (updateProgressInference stW5 mW5 1000).2.anchorProgress =
        some (rawAnchorProgress mW5) ∧
      rawAnchorProgress mW5 = 10 ∧
      (inferProgressAt stW5 1000).1 = some 50 ∧ (10 : ℚ) < 50) := by
  have h0 : (0 : ℚ) ≤ rawAnchorProgress mW5 := by norm_num [rawAnchorProgress, mW5]
  have h100 : rawAnchorProgress mW5 ≤ 100 := by norm_num [rawAnchorProgress, mW5]
  refine ⟨by decide, rfl, rfl, by decide, h0, h100,
    segment_change_accepts_raw stW5 mW5 1000 "S" "T" (by decide) rfl rfl (by decide) h0 h100,
    by norm_num [rawAnchorProgress, mW5],
    by norm_num [inferProgressAt, stW5, initTrainAuto, clampProgress], by norm_num⟩

/-! ## C8: interval selection -/

/-- Refinement model of the SPEC's selection sentence ("taking the minimum
applicable interval when multiple conditions apply"): the minimum over all
applicable table intervals, with `base` always applicable. -/
def specMinApplicableInterval (kind status_key : String)
    (progress seenAge : Option ℚ) : ℚ :=
  let status := jsToUpperCase status_key
  let cands : List ℚ :=
    (if kind ≠ "live" then [TRAIN_DETAIL_INTERVALS.scheduled] else [])
    ++ (if status == "INCOMING_AT" then [TRAIN_DETAIL_INTERVALS.approaching] else [])
    ++ (if status == "STOPPED_AT" then [TRAIN_DETAIL_INTERVALS.stopped] else [])
    ++ (if (match progress with | some p => decide (70 ≤ p) | none => false) then
        [TRAIN_DETAIL_INTERVALS.approaching] else [])
    ++ (if (match seenAge with | some a => decide (180 < a) | none => false) then
        [TRAIN_DETAIL_INTERVALS.stale] else [])
  cands.foldl min TRAIN_DETAIL_INTERVALS.base

/-- C8 counterexample: a live train stopped at a station with progress already
at 80% — both the `stopped` (15 s) and the high-proximity `approaching` (12 s)
rules apply; the claimed minimum is 12000 ms but the code returns 15000 ms
(the status rule wins by priority, not by minimum). -/
theorem interval_not_min_cex :
    (nextTrainDetailInterval "live" "STOPPED_AT" (some 80) none = 15000 ∧
      specMinApplicableInterval "live" "STOPPED_AT" (some 80) none = 12000 ∧
      (15000 : ℚ) ≠ 12000) := by
  have h1 : (jsToUpperCase "STOPPED_AT" == "INCOMING_AT") = false := by decide
  have h2 : (jsToUpperCase "STOPPED_AT" == "STOPPED_AT") = true := by decide
  refine ⟨?_, ?_, by norm_num⟩
  · simp [nextTrainDetailInterval, h1, h2, TRAIN_DETAIL_INTERVALS]
  · simp [specMinApplicableInterval, h1, h2, TRAIN_DETAIL_INTERVALS]
    norm_num

/-- C8 (amended): interval selection is a first-match priority chain —
non-live kind → scheduled; `INCOMING_AT` → approaching; `STOPPED_AT` → stopped
(even when the 70% proximity rule or the staleness rule also applies, since the
theorem quantifies over arbitrary progress and seen-age); otherwise
progress ≥ 70 → approaching; otherwise seen-age > 180 s → stale; otherwise
base.  No extra floor or ceiling is applied: every result is one of the
table's values 12000, 15000 or 30000 ms. -/
theorem interval_priority_chain (kind status_key : String)
    (progress seenAge : Option ℚ) :
    ((kind ≠ "live" →
        nextTrainDetailInterval kind status_key progress seenAge =
          TRAIN_DETAIL_INTERVALS.scheduled) ∧
      (kind = "live" → jsToUpperCase status_key = "INCOMING_AT" →
        nextTrainDetailInterval kind status_key progress seenAge =
          TRAIN_DETAIL_INTERVALS.approaching) ∧
      (kind = "live" → jsToUpperCase status_key = "STOPPED_AT" →
        nextTrainDetailInterval kind status_key progress seenAge =
          TRAIN_DETAIL_INTERVALS.stopped) ∧
      (kind = "live" → jsToUpperCase status_key ≠ "INCOMING_AT" →
        jsToUpperCase status_key ≠ "STOPPED_AT" →
        (∃ p, progress = some p ∧ 70 ≤ p) →
        nextTrainDetailInterval kind status_key progress seenAge =
          TRAIN_DETAIL_INTERVALS.approaching) ∧
      (kind = "live" → jsToUpperCase status_key ≠ "INCOMING_AT" →
        jsToUpperCase status_key ≠ "STOPPED_AT" →
        (∀ p, progress = some p → p < 70) →
        (∃ a, seenAge = some a ∧ 180 < a) →
        nextTrainDetailInterval kind status_key progress seenAge =
          TRAIN_DETAIL_INTERVALS.stale) ∧
      (kind = "live" → jsToUpperCase status_key ≠ "INCOMING_AT" →
        jsToUpperCase status_key ≠ "STOPPED_AT" →
        (∀ p, progress = some p → p < 70) →
        (∀ a, seenAge = some a → a ≤ 180) →
        nextTrainDetailInterval kind status_key progress seenAge =
          TRAIN_DETAIL_INTERVALS.base) ∧
      (nextTrainDetailInterval kind status_key progress seenAge = 12000 ∨
        nextTrainDetailInterval kind status_key progress seenAge = 15000 ∨
        nextTrainDetailInterval kind status_key progress seenAge = 30000)) := by
  refine ⟨?_, ?_, ?_, ?_, ?_, ?_, ?_⟩
  · intro h; simp [nextTrainDetailInterval, h]
  · intro hk hs
    have h1 : (jsToUpperCase status_key == "INCOMING_AT") = true := by
      rw [hs]; decide
    simp [nextTrainDetailInterval, hk, h1]
  · intro hk hs
    have h1 : (jsToUpperCase status_key == "INCOMING_AT") = false := by
      rw [hs]; decide
    have h2 : (jsToUpperCase status_key == "STOPPED_AT") = true := by
      rw [hs]; decide
    simp [nextTrainDetailInterval, hk, h1, h2]
  · intro hk hs1 hs2 hex
    obtain ⟨p, hp, hp70⟩ := hex
    subst hp
    have h1 : (jsToUpperCase status_key == "INCOMING_AT") = false := by
      simpa using hs1
    have h2 : (jsToUpperCase status_key == "STOPPED_AT") = false := by
      simpa using hs2
    simp [nextTrainDetailInterval, hk, h1, h2, hp70]
  · intro hk hs1 hs2 hplt hex
    obtain ⟨a, ha, ha180⟩ := hex
    subst ha
    have h1 : (jsToUpperCase status_key == "INCOMING_AT") = false := by
      simpa using hs1
    have h2 : (jsToUpperCase status_key == "STOPPED_AT") = false := by
      simpa using hs2
    cases progress with
    | none => simp [nextTrainDetailInterval, hk, h1, h2, ha180]
    | some p =>
        have hp : p < 70 := hplt p rfl
        simp [nextTrainDetailInterval, hk, h1, h2, ha180, not_le.mpr hp]
  · intro hk hs1 hs2 hplt halt
    have h1 : (jsToUpperCase status_key == "INCOMING_AT") = false := by
      simpa using hs1
    have h2 : (jsToUpperCase status_key == "STOPPED_AT") = false := by
      simpa using hs2
    cases progress with
    | none =>
        cases seenAge with
        | none => simp [nextTrainDetailInterval, hk, h1, h2]
        | some a =>
            have ha : a ≤ 180 := halt a rfl
            simp [nextTrainDetailInterval, hk, h1, h2, not_lt.mpr ha]
    | some p =>
        have hp : p < 70 := hplt p rfl
        cases seenAge with
        | none => simp [nextTrainDetailInterval, hk, h1, h2, not_le.mpr hp]
        | some a =>
            have ha : a ≤ 180 := halt a rfl
            simp [nextTrainDetailInterval, hk, h1, h2, not_le.mpr hp,
              not_lt.mpr ha]
  · unfold nextTrainDetailInterval
    simp only [beq_iff_eq]
    split_ifs <;> simp [TRAIN_DETAIL_INTERVALS]

/-- C8 witness: each link of the chain applied at a concrete input — a
non-live kind, a lower-case `incoming_at` status, a stopped train at 80%
progress and 200 s seen-age (both later rules also apply), the 70% proximity
rule, the staleness rule, and the default. -/
theorem interval_priority_chain_witness :
    (nextTrainDetailInterval "scheduled" "IN_TRANSIT_TO" (some 80) (some 200) =
        TRAIN_DETAIL_INTERVALS.scheduled ∧
      nextTrainDetailInterval "live" "incoming_at" (some 10) (some 200) =
        TRAIN_DETAIL_INTERVALS.approaching ∧
      nextTrainDetailInterval "live" "STOPPED_AT" (some 80) (some 200) =
        TRAIN_DETAIL_INTERVALS.stopped ∧
      nextTrainDetailInterval "live" "IN_TRANSIT_TO" (some 80) (some 200) =
        TRAIN_DETAIL_INTERVALS.approaching ∧
      nextTrainDetailInterval "live" "IN_TRANSIT_TO" (some 10) (some 200) =
        TRAIN_DETAIL_INTERVALS.stale ∧
      nextTrainDetailInterval "live" "IN_TRANSIT_TO" (some 10) (some 100) =
        TRAIN_DETAIL_INTERVALS.base) := by
  refine ⟨(interval_priority_chain "scheduled" "IN_TRANSIT_TO"
        (some 80) (some 200)).1 (by decide),
    (interval_priority_chain "live" "incoming_at"
        (some 10) (some 200)).2.1 rfl (by decide),
    (interval_priority_chain "live" "STOPPED_AT"
        (some 80) (some 200)).2.2.1 rfl (by decide),
    (interval_priority_chain "live" "IN_TRANSIT_TO"
        (some 80) (some 200)).2.2.2.1 rfl (by decide) (by decide)
      ⟨80, rfl, by norm_num⟩,
    (interval_priority_chain "live" "IN_TRANSIT_TO"
        (some 10) (some 200)).2.2.2.2.1 rfl (by decide) (by decide)
      (fun p hp => by injection hp with h; rw [← h]; norm_num)
      ⟨200, rfl, by norm_num⟩,
    (interval_priority_chain "live" "IN_TRANSIT_TO"
        (some 10) (some 100)).2.2.2.2.2.1 rfl (by decide) (by decide)
      (fun p hp => by injection hp with h; rw [← h]; norm_num)
      (fun a ha => by injection ha with h; rw [← h]; norm_num)⟩

/-! ## C7: exponential backoff -/

theorem afterKFailures_errors (ks : Bool) (k : ℕ) :
    (afterKFailures ks k).1 = min k 6 := by
  induction k with
  | zero => rfl
  | succ m ih =>
      unfold afterKFailures refreshScheduleStep
      rw [ih]
      simp only []
      omega

theorem backoff_base_eq (ks : Bool) :
    (if ks then TRAIN_DETAIL_INTERVALS.scheduled else TRAIN_DETAIL_INTERVALS.base) =
      TRAIN_DETAIL_INTERVALS.base := by
  cases ks <;> rfl

theorem backoff_penalty_eq (m : ℕ) :
    min (TRAIN_DETAIL_INTERVALS.base * 2 ^ (min (m + 1) 6 - 1))
        TRAIN_DETAIL_INTERVALS.maxBackoff =
      min (TRAIN_DETAIL_INTERVALS.base * 2 ^ m) TRAIN_DETAIL_INTERVALS.maxBackoff := by
  rcases le_or_lt (m + 1) 6 with h | h
  · rw [min_eq_left h]
    simp
  · have h6 : 6 ≤ m := by omega
    rw [min_eq_right (by omega : 6 ≤ m + 1)]
    have hL : min (TRAIN_DETAIL_INTERVALS.base * 2 ^ (6 - 1))
        TRAIN_DETAIL_INTERVALS.maxBackoff = TRAIN_DETAIL_INTERVALS.maxBackoff := by
      norm_num [TRAIN_DETAIL_INTERVALS]
    have hpow : (2 : ℚ) ^ 6 ≤ 2 ^ m := pow_le_pow_right₀ (by norm_num) h6
    have hR : TRAIN_DETAIL_INTERVALS.maxBackoff ≤ TRAIN_DETAIL_INTERVALS.base * 2 ^ m := by
      have : (120000 : ℚ) ≤ 30000 * 2 ^ m := by nlinarith [hpow]
      simpa [TRAIN_DETAIL_INTERVALS] using this
    rw [hL, min_eq_right hR]

/-- C7: after `k ≥ 1` consecutive fetch failures the scheduled delay is
`min(base * 2^(k-1), maxBackoff)` with the failure counter capped at 6 and
`maxBackoff = 120000` ms, and the next successful fetch resets the counter to
0 and schedules the table-selected interval plus the jitter. -/
theorem backoff_bounds (ks : Bool) (k : ℕ) (hk : 1 ≤ k)
    (kind status_key : String) (progress seenAge : Option ℚ) (jitter : ℚ) :
    ((afterKFailures ks k).2 =
        min (TRAIN_DETAIL_INTERVALS.base * 2 ^ (k - 1)) TRAIN_DETAIL_INTERVALS.maxBackoff ∧
      (afterKFailures ks k).1 = min k 6 ∧
      refreshScheduleStep (afterKFailures ks k).1
          (.success kind status_key progress seenAge jitter) =
        (0, nextTrainDetailInterval kind status_key progress seenAge + jitter)) := by
  refine ⟨?_, afterKFailures_errors ks k, rfl⟩
  obtain ⟨m, rfl⟩ : ∃ m, k = m + 1 := ⟨k - 1, by omega⟩
  show (refreshScheduleStep (afterKFailures ks m).1 (.failure ks)).2 = _
  rw [afterKFailures_errors ks m]
  unfold refreshScheduleStep
  simp only [backoff_base_eq]
  have : min (min m 6 + 1) 6 = min (m + 1) 6 := by omega
  rw [this, backoff_penalty_eq]
  simp

theorem backoff_bounds_witness :
    (1 ≤ 3 ∧
      ((afterKFailures false 3).2 =
          min (TRAIN_DETAIL_INTERVALS.base * 2 ^ (3 - 1)) TRAIN_DETAIL_INTERVALS.maxBackoff ∧
        (afterKFailures false 3).1 = min 3 6 ∧
        refreshScheduleStep (afterKFailures false 3).1
            (.success "live" "IN_TRANSIT_TO" none none 250) =
          (0, nextTrainDetailInterval "live" "IN_TRANSIT_TO" none none + 250))) :=
  ⟨by norm_num, backoff_bounds false 3 (by norm_num) "live" "IN_TRANSIT_TO" none none 250⟩

/-! ## C9: visibility handling -/

/-- C9 counterexample state: the scheduler is running while the document is
hidden (auto-refresh can be (re)started while hidden, e.g. by the
`htmx:afterSettle` binding or `startTrainDetailAuto`'s own hidden branch). -/
def stC9 : SchedState :=
  { running := true, timerArmed := false, timerDelay := 0,
    inFlight := false, errors := 0, baseInterval := 30000 }

/-- C9 counterexample: a refresh step that runs while the document is hidden
does NOT leave the scheduler unarmed — it re-arms the refresh timer at the
base interval (train-detail.js lines 575-578), contradicting "no refresh timer
is armed ... when a refresh step runs while the document is hidden". -/
theorem hidden_refresh_arms_timer_cex :
    ((refreshTrainDetailEntry true stC9).1.timerArmed = true ∧
      (refreshTrainDetailEntry true stC9).1.timerDelay = 30000 ∧
      (refreshTrainDetailEntry true stC9).2 = false) := by
  norm_num [refreshTrainDetailEntry, scheduleTrainDetailTickStep, stC9]

/-- C9 (amended): the `visibilitychange` handler suspends the scheduler on
hide (timer cleared, not running) and, on becoming visible with a stopped
scheduler, issues a fetch immediately; but a refresh step that runs while the
document is hidden with the scheduler still running re-arms the base-interval
timer instead of suspending. -/
theorem visibility_suspend_resume (st st2 st3 : SchedState)
    (h2 : st2.running = false) (h3 : st3.running = true) :
    ((visibilityChangeStep true st).1.timerArmed = false ∧
      (visibilityChangeStep true st).1.running = false ∧
      (visibilityChangeStep false st2).2 = true ∧
      (refreshTrainDetailEntry true st3).1.timerArmed = true) := by
  refine ⟨?_, ?_, ?_, ?_⟩
  · simp [visibilityChangeStep, stopTrainDetailAutoStep]
  · simp [visibilityChangeStep, stopTrainDetailAutoStep]
  · simp [visibilityChangeStep, startTrainDetailAutoStep, h2,
      refreshTrainDetailEntry]
  · simp [refreshTrainDetailEntry, scheduleTrainDetailTickStep, h3]

theorem visibility_suspend_resume_witness :
    (({ stC9 with running := false } : SchedState).running = false ∧
      stC9.running = true ∧
      ((visibilityChangeStep true stC9).1.timerArmed = false ∧
        (visibilityChangeStep true stC9).1.running = false ∧
        (visibilityChangeStep false { stC9 with running := false }).2 = true ∧
        (refreshTrainDetailEntry true stC9).1.timerArmed = true)) :=
  ⟨rfl, rfl,
    visibility_suspend_resume stC9 { stC9 with running := false } stC9 rfl rfl⟩

/-! ## Invariants of the anchor state (shared lemmas) -/

theorem clampProgress_le {p c : ℚ} (h0 : 0 ≤ c) (h : p ≤ c) :
    clampProgress p ≤ c :=
  max_le h0 (le_trans (min_le_right _ _) h)

theorem slopeFor_nonneg (sk : String) (b : Bool) (na aMs tMs : ℚ) :
    0 ≤ slopeFor sk b na aMs tMs := by
  unfold slopeFor PROGRESS_MIN_SLOPE_PPS
  by_cases h : ((sk == "IN_TRANSIT_TO" || sk == "INCOMING_AT") && !b) = true
  · rw [if_pos h]
    by_cases h1 : (100 - na) / max 500 (tMs - aMs) < 0
    · simp only [if_pos h1]
      norm_num
    · simp only [if_neg h1, Bool.and_eq_true, decide_eq_true_eq]
      by_cases h2 : 0 < (100 - na) / max 500 (tMs - aMs) ∧
          (100 - na) / max 500 (tMs - aMs) < 1 / 20 / 1000
      · rw [if_pos h2]
        norm_num
      · rw [if_neg h2]
        linarith [not_lt.mp h1]
  · rw [if_neg h]

/-- The tracking regime: an anchored state with in-range anchor, ceiling 95 and
non-negative rate — exactly what a non-stopped `updateProgressInference` step
establishes. -/
def Tracking (st : TrainAuto) : Prop :=
  (∃ a, st.anchorProgress = some a ∧ 0 ≤ a ∧ a ≤ 100) ∧
  (∃ ts, st.anchorTs = some ts) ∧
  st.progressCeil = some 95 ∧
  (∃ s, st.progressSlopePerMs = some s ∧ 0 ≤ s)

theorem inferProgressAt_tracking_value {st : TrainAuto} {a ts : ℚ} (t : ℚ)
    (ha : st.anchorProgress = some a) (hts : st.anchorTs = some ts)
    (hceil : st.progressCeil = some 95) :
    (inferProgressAt st t).1 =
      some (clampProgress (min (a + max 0 (t - ts) * st.progressSlopePerMs.getD 0) 95)) := by
  rw [inferProgressAt_of_anchor t ha hts, hceil]

theorem inferProgressAt_tracking_bounds {st : TrainAuto} {t v : ℚ}
    (htrack : Tracking st) (hv : (inferProgressAt st t).1 = some v) :
    0 ≤ v ∧ v ≤ 95 := by
  obtain ⟨⟨a, ha, _, _⟩, ⟨ts, hts⟩, hceil, _⟩ := htrack
  rw [inferProgressAt_tracking_value t ha hts hceil] at hv
  obtain rfl := (Option.some.injEq _ _).mp hv.symm
  exact ⟨clampProgress_nonneg _, clampProgress_le (by norm_num) (min_le_right _ _)⟩

theorem inferProgressAt_mono {st : TrainAuto} {a ts s : ℚ}
    (ha : st.anchorProgress = some a) (hts : st.anchorTs = some ts)
    (hs : st.progressSlopePerMs = some s) (hs0 : 0 ≤ s)
    {t1 t2 : ℚ} (ht : t1 ≤ t2) {v1 v2 : ℚ}
    (h1 : (inferProgressAt st t1).1 = some v1)
    (h2 : (inferProgressAt st t2).1 = some v2) : v1 ≤ v2 := by
  rw [inferProgressAt_of_anchor t1 ha hts] at h1
  rw [inferProgressAt_of_anchor t2 ha hts] at h2
  obtain rfl := (Option.some.injEq _ _).mp h1.symm
  obtain rfl := (Option.some.injEq _ _).mp h2.symm
  have hdelta : max 0 (t1 - ts) ≤ max 0 (t2 - ts) :=
    max_le_max le_rfl (by linarith)
  have hinner : a + max 0 (t1 - ts) * st.progressSlopePerMs.getD 0 ≤
      a + max 0 (t2 - ts) * st.progressSlopePerMs.getD 0 := by
    rw [hs]
    simp only [Option.getD_some]
    nlinarith [max_le_max (le_refl (0 : ℚ)) (show t1 - ts ≤ t2 - ts by linarith),
      le_max_left (0 : ℚ) (t1 - ts)]
  cases hc : st.progressCeil with
  | none => exact clampProgress_mono hinner
  | some c => exact clampProgress_mono (min_le_min hinner le_rfl)

/-- The state after an update step (both branches) keeps its anchor fields
evaluable: fields of the stopped branch. -/
theorem update_stopped_fields (st : TrainAuto) (m : Model) (nowMs : ℚ)
    (h : jsToUpperCase m.status_key = "STOPPED_AT") :
    ((updateProgressInference st m nowMs).1 = some 0 ∧
      (updateProgressInference st m nowMs).2.anchorProgress = some 0 ∧
      (updateProgressInference st m nowMs).2.anchorTs = some (anchorTsMsOf m nowMs) ∧
      (updateProgressInference st m nowMs).2.progressSlopePerMs = some 0 ∧
      (updateProgressInference st m nowMs).2.progressCeil = some 0) := by
  unfold updateProgressInference
  simp [h]

/-! ## C10: implicit invariants of anchor states and the tick evaluator -/

/-- C10: every anchor state produced by the reconciler has a defined
non-negative rate and a defined non-negative ceiling; evaluating the tick
estimator on such a state always yields a value in `[0, min(ceiling, 100)]`,
and the value is non-decreasing in the evaluation time — for any snapshot
input whatsoever. -/
theorem anchor_state_invariants (st : TrainAuto) (m : Model) (nowMs : ℚ) :
    ((∃ s, (updateProgressInference st m nowMs).2.progressSlopePerMs = some s ∧ 0 ≤ s) ∧
      (∃ c, (updateProgressInference st m nowMs).2.progressCeil = some c ∧ 0 ≤ c) ∧
      (∀ t : ℚ, ∃ v, (inferProgressAt (updateProgressInference st m nowMs).2 t).1 = some v ∧
        0 ≤ v ∧ v ≤ 100 ∧
        ∀ c, (updateProgressInference st m nowMs).2.progressCeil = some c →
          v ≤ min c 100) ∧
      (∀ t1 t2 : ℚ, t1 ≤ t2 → ∀ v1 v2 : ℚ,
        (inferProgressAt (updateProgressInference st m nowMs).2 t1).1 = some v1 →
        (inferProgressAt (updateProgressInference st m nowMs).2 t2).1 = some v2 →
        v1 ≤ v2)) := by
  by_cases hstop : jsToUpperCase m.status_key = "STOPPED_AT"
  · obtain ⟨-, ha, hts, hs, hc⟩ := update_stopped_fields st m nowMs hstop
    refine ⟨⟨0, hs, le_rfl⟩, ⟨0, hc, le_rfl⟩, fun t => ?_, fun t1 t2 ht v1 v2 h1 h2 => ?_⟩
    · refine ⟨clampProgress (min (0 + max 0 (t - anchorTsMsOf m nowMs) *
          ((updateProgressInference st m nowMs).2.progressSlopePerMs.getD 0)) 0),
        by rw [inferProgressAt_of_anchor t ha hts, hc], ?_, ?_, ?_⟩
      · exact clampProgress_nonneg _
      · exact clampProgress_le_100 _
      · intro c hc'
        rw [hc] at hc'
        obtain rfl := (Option.some.injEq _ _).mp hc'.symm
        refine le_min (clampProgress_le le_rfl (min_le_right _ _)) (clampProgress_le_100 _)
    · exact inferProgressAt_mono ha hts hs le_rfl ht h1 h2
  · obtain ⟨ha, hts, hc, hs, -, -, -⟩ := update_not_stopped st m nowMs hstop
    have hs0 : 0 ≤ newSlopeOf st m nowMs := slopeFor_nonneg _ _ _ _ _
    refine ⟨⟨_, hs, hs0⟩, ⟨95, hc, by norm_num⟩, fun t => ?_,
      fun t1 t2 ht v1 v2 h1 h2 => ?_⟩
    · refine ⟨clampProgress (min (newAnchorOf st m nowMs +
          max 0 (t - anchorTsMsOf m nowMs) *
          ((updateProgressInference st m nowMs).2.progressSlopePerMs.getD 0)) 95),
        by rw [inferProgressAt_of_anchor t ha hts, hc], ?_, ?_, ?_⟩
      · exact clampProgress_nonneg _
      · exact clampProgress_le_100 _
      · intro c hc'
        rw [hc] at hc'
        obtain rfl := (Option.some.injEq _ _).mp hc'.symm
        exact le_min (clampProgress_le (by norm_num) (min_le_right _ _))
          (clampProgress_le_100 _)
    · exact inferProgressAt_mono ha hts hs hs0 ht h1 h2

def stW10 : TrainAuto :=
  { initTrainAuto with
    anchorProgress := some 200
    anchorTs := some 0
    progressSlopePerMs := some (-3)
    progressCeil := none
    lastStopId := some "S" }

/-- Degenerate/out-of-range witness snapshot for `anchor_state_invariants`:
raw progress 250 (out of range), no timestamps. -/
def mW10 : Model :=
  { server_progress := some 250, next_stop_id := some "S",
    status_key := "IN_TRANSIT_TO", anchor_progress := some 250,
    anchor_ts := none, target_ts := none, is_stopped := false }

theorem anchor_state_invariants_witness :
    ((∃ s, (updateProgressInference stW10 mW10 1000).2.progressSlopePerMs = some s ∧ 0 ≤ s) ∧
      (∃ c, (updateProgressInference stW10 mW10 1000).2.progressCeil = some c ∧ 0 ≤ c) ∧
      (∀ t : ℚ, ∃ v, (inferProgressAt (updateProgressInference stW10 mW10 1000).2 t).1 = some v ∧
        0 ≤ v ∧ v ≤ 100 ∧
        ∀ c, (updateProgressInference stW10 mW10 1000).2.progressCeil = some c →
          v ≤ min c 100) ∧
      (∀ t1 t2 : ℚ, t1 ≤ t2 → ∀ v1 v2 : ℚ,
        (inferProgressAt (updateProgressInference stW10 mW10 1000).2 t1).1 = some v1 →
        (inferProgressAt (updateProgressInference stW10 mW10 1000).2 t2).1 = some v2 →
        v1 ≤ v2)) :=
  anchor_state_invariants stW10 mW10 1000

/-! ## C3: traces of ticks and snapshots -/

/-- The two inputs that drive the engine: an animation tick of
`ensureProgressTimer` (publishing `inferProgressAt(st, Date.now())`) and an
accepted snapshot (running `updateProgressInference`). -/
inductive EngineEvent where
  | tick (t : ℚ)
  | snap (m : Model) (t : ℚ)

/-- One engine step: the new state and the value published by the event. -/
def engineStep (st : TrainAuto) : EngineEvent → TrainAuto × Option ℚ
  | .tick t => ((inferProgressAt st t).2, (inferProgressAt st t).1)
  | .snap m t => ((updateProgressInference st m t).2, (updateProgressInference st m t).1)

/-- The sequence of published values along a run of events. -/
def publishedList (st : TrainAuto) : List EngineEvent → List (Option ℚ)
  | [] => []
  | e :: evs => (engineStep st e).2 :: publishedList (engineStep st e).1 evs

/-- An "agreeing" snapshot relative to the engine state at its arrival time:
non-stopped, unchanged segment, and a raw value that has not fallen more than
the dead-band (5 points) below the locally extrapolated estimate. -/
def OkSnap (st : TrainAuto) (m : Model) (t : ℚ) : Prop :=
  jsToUpperCase m.status_key ≠ "STOPPED_AT" ∧
  segmentChanged st m = false ∧
  ∀ cur, (inferProgressAt st t).1 = some cur → -5 ≤ rawAnchorProgress m - cur

/-- A run of events with non-decreasing times whose snapshots all agree in the
sense of `OkSnap`. -/
inductive GoodRun : TrainAuto → ℚ → List EngineEvent → Prop where
  | nil : ∀ st t, GoodRun st t []
  | tick : ∀ {st : TrainAuto} {t t' : ℚ} {evs : List EngineEvent},
      t ≤ t' → GoodRun (inferProgressAt st t').2 t' evs →
      GoodRun st t (EngineEvent.tick t' :: evs)
  | snap : ∀ {st : TrainAuto} {m : Model} {t t' : ℚ} {evs : List EngineEvent},
      t ≤ t' → OkSnap st m t' →
      GoodRun (updateProgressInference st m t').2 t' evs →
      GoodRun st t (EngineEvent.snap m t' :: evs)

theorem tracking_tick (st : TrainAuto) (t : ℚ) (h : Tracking st) :
    Tracking (inferProgressAt st t).2 := by
  obtain fs := inferProgressAt_fields st t
  unfold Tracking at h ⊢
  rw [fs.1, fs.2.1, fs.2.2.1, fs.2.2.2.1]
  exact h

theorem infer_value_stable (st : TrainAuto) (u t : ℚ) (h : Tracking st) :
    (inferProgressAt (inferProgressAt st u).2 t).1 = (inferProgressAt st t).1 := by
  obtain ⟨⟨a, ha, _, _⟩, ⟨ts, hts⟩, hceil, _⟩ := h
  obtain fs := inferProgressAt_fields st u
  rw [inferProgressAt_of_anchor t (fs.1.trans ha) (fs.2.1.trans hts),
    inferProgressAt_of_anchor t ha hts, fs.2.2.1, fs.2.2.2.1]

theorem reconcileAnchor_ge {cur raw : ℚ} (h : -5 ≤ raw - cur) :
    cur ≤ reconcileAnchor (some cur) false raw := by
  rcases lt_or_le 0 (raw - cur) with hd | hd
  · rw [reconcileAnchor_catchup hd]
    linarith
  · rw [reconcileAnchor_keep hd h]

theorem snap_step (st : TrainAuto) (m : Model) (t : ℚ) (htrack : Tracking st)
    (hok : OkSnap st m t) :
    ∃ w, (updateProgressInference st m t).1 = some w ∧
      (∀ v, (inferProgressAt st t).1 = some v → v ≤ w) ∧
      Tracking (updateProgressInference st m t).2 ∧
      (inferProgressAt (updateProgressInference st m t).2 t).1 = some w := by
  obtain ⟨hstat, hseg, hdb⟩ := hok
  obtain ⟨ha', hts', hc', hs', -, -, hval⟩ := update_not_stopped st m t hstat
  obtain ⟨⟨a, ha, ha0, ha100⟩, ⟨ts, hts⟩, hceil, ⟨s, hs, hs0⟩⟩ := htrack
  obtain ⟨v0, hv0⟩ : ∃ v0, (inferProgressAt st t).1 = some v0 :=
    ⟨_, inferProgressAt_of_anchor t ha hts⟩
  obtain ⟨hv00, hv095⟩ := inferProgressAt_tracking_bounds
    ⟨⟨a, ha, ha0, ha100⟩, ⟨ts, hts⟩, hceil, ⟨s, hs, hs0⟩⟩ hv0
  have hanchor_ge : v0 ≤ newAnchorOf st m t := by
    have : clampProgress v0 ≤ newAnchorOf st m t := by
      unfold newAnchorOf
      rw [hv0, hseg]
      exact clampProgress_mono (reconcileAnchor_ge (hdb v0 hv0))
    rwa [clampProgress_eq_self hv00 (le_trans hv095 (by norm_num))] at this
  have hslope0 : 0 ≤ newSlopeOf st m t := slopeFor_nonneg _ _ _ _ _
  refine ⟨_, hval, ?_, ?_, ?_⟩
  · intro v hv
    obtain rfl : v0 = v := by
      rw [hv0] at hv
      exact (Option.some.injEq _ _).mp hv
    have hprod : 0 ≤ max 0 (t - anchorTsMsOf m t) * newSlopeOf st m t :=
      mul_nonneg (le_max_left _ _) hslope0
    have hinner : v0 ≤ newAnchorOf st m t +
        max 0 (t - anchorTsMsOf m t) * newSlopeOf st m t := by linarith
    calc v0 = clampProgress v0 :=
          (clampProgress_eq_self hv00 (le_trans hv095 (by norm_num))).symm
      _ ≤ clampProgress (min (newAnchorOf st m t +
            max 0 (t - anchorTsMsOf m t) * newSlopeOf st m t) 95) :=
          clampProgress_mono (le_min hinner hv095)
  · exact ⟨⟨_, ha', clampProgress_nonneg _, clampProgress_le_100 _⟩, ⟨_, hts'⟩, hc',
      ⟨_, hs', hslope0⟩⟩
  · rw [inferProgressAt_tracking_value t ha' hts' hc', hs']
    simp

theorem goodRun_chain : ∀ {st : TrainAuto} {t0 : ℚ} {evs : List EngineEvent},
    GoodRun st t0 evs → Tracking st →
    ∀ v, (inferProgressAt st t0).1 = some v →
    List.Chain' (· ≤ ·) (v :: (publishedList st evs).reduceOption) := by
  intro st t0 evs hrun
  induction hrun with
  | nil st t =>
      intro htrack v hv
      simp [publishedList]
  | @tick st t t' evs hle hrest ih =>
      intro htrack v hv
      obtain ⟨⟨a, ha, ha0, ha100⟩, ⟨ts, hts⟩, hceil, ⟨s, hs, hs0⟩⟩ := htrack
      have htrack : Tracking st :=
        ⟨⟨a, ha, ha0, ha100⟩, ⟨ts, hts⟩, hceil, ⟨s, hs, hs0⟩⟩
      obtain ⟨v', hv'⟩ : ∃ v', (inferProgressAt st t').1 = some v' :=
        ⟨_, inferProgressAt_of_anchor t' ha hts⟩
      have hmono : v ≤ v' := inferProgressAt_mono ha hts hs hs0 hle hv hv'
      have hstable : (inferProgressAt (inferProgressAt st t').2 t').1 = some v' := by
        rw [infer_value_stable st t' t' htrack]
        exact hv'
      have hchain := ih (tracking_tick st t' htrack) v' hstable
      simp only [publishedList, engineStep]
      rw [hv']
      simp only [List.reduceOption_cons_of_some]
      exact List.chain'_cons.mpr ⟨hmono, hchain⟩
  | @snap st m t t' evs hle hok hrest ih =>
      intro htrack v hv
      obtain ⟨w, hw, hvw, htrack', hstable⟩ := snap_step st m t' htrack hok
      obtain ⟨⟨a, ha, ha0, ha100⟩, ⟨ts, hts⟩, hceil, ⟨s, hs, hs0⟩⟩ := htrack
      obtain ⟨v', hv'⟩ : ∃ v', (inferProgressAt st t').1 = some v' :=
        ⟨_, inferProgressAt_of_anchor t' ha hts⟩
      have h1 : v ≤ v' := inferProgressAt_mono ha hts hs hs0 hle hv hv'
      have h2 : v' ≤ w := hvw v' hv'
      have hchain := ih htrack' w hstable
      simp only [publishedList, engineStep]
      rw [hw]
      simp only [List.reduceOption_cons_of_some]
      exact List.chain'_cons.mpr ⟨le_trans h1 h2, hchain⟩

/-- C3 (amended): along any run of animation ticks and agreeing snapshots
(non-stopped, unchanged segment, raw value at most the dead-band of 5 points
below the locally extrapolated estimate) with non-decreasing times, starting
from a tracking anchor state, the sequence of published estimates is
non-decreasing.  Without the dead-band bound this fails: when the local
extrapolation overshoots the server by more than 5 points, the correction
branch moves the display backward (see the counterexample). -/
theorem monotonic_display (st : TrainAuto) (t0 : ℚ) (evs : List EngineEvent)
    (htrack : Tracking st) (hrun : GoodRun st t0 evs) :
    List.Chain' (· ≤ ·) ((publishedList st evs).reduceOption) := by
  obtain ⟨a, ha, -, -⟩ := htrack.1
  obtain ⟨ts, hts⟩ := htrack.2.1
  exact (goodRun_chain hrun htrack _ (inferProgressAt_of_anchor t0 ha hts)).tail

def stT3 : TrainAuto :=
  { initTrainAuto with
    anchorProgress := some 50
    anchorTs := some 0
    progressSlopePerMs := some (1 / 600)
    progressCeil := some 95
    lastStopId := some "S" }

/-- State after a tick of `stT3` at t = 3000. -/
def stT3b : TrainAuto := { stT3 with inferredProgress := some 55 }

/-- Witness snapshot for `monotonic_display`: raw 60, ahead of the local 55. -/
def mT3 : Model :=
  { server_progress := some 60, next_stop_id := some "S",
    status_key := "IN_TRANSIT_TO", anchor_progress := some 60,
    anchor_ts := none, target_ts := none, is_stopped := false }

theorem monotonic_display_witness :
    (Tracking stT3 ∧
      GoodRun stT3 0 [EngineEvent.tick 3000, EngineEvent.snap mT3 3000] ∧
      List.Chain' (· ≤ ·)
        ((publishedList stT3 [EngineEvent.tick 3000, EngineEvent.snap mT3 3000]).reduceOption)) := by
  have htrack : Tracking stT3 :=
    ⟨⟨50, rfl, by norm_num, by norm_num⟩, ⟨0, rfl⟩, rfl, ⟨1 / 600, rfl, by norm_num⟩⟩
  have hstep : inferProgressAt stT3 3000 = (some 55, stT3b) := by
    norm_num [inferProgressAt, stT3, stT3b, initTrainAuto, clampProgress,
      max_def, min_def]
  have hstep2 : (inferProgressAt stT3b 3000).1 = some 55 := by
    norm_num [inferProgressAt, stT3b, stT3, initTrainAuto, clampProgress,
      max_def, min_def]
  have hok : OkSnap stT3b mT3 3000 := by
    refine ⟨by decide, by decide, fun cur hcur => ?_⟩
    rw [hstep2] at hcur
    obtain rfl := (Option.some.injEq _ _).mp hcur
    norm_num [rawAnchorProgress, mT3]
  have hrun : GoodRun stT3 0 [EngineEvent.tick 3000, EngineEvent.snap mT3 3000] := by
    apply GoodRun.tick (by norm_num : (0 : ℚ) ≤ 3000)
    rw [hstep]
    exact GoodRun.snap le_rfl hok (GoodRun.nil _ _)
  exact ⟨htrack, hrun, monotonic_display stT3 0 _ htrack hrun⟩

/-- First counterexample snapshot: server 50, in transit to "S". -/
def mX3a : Model :=
  { server_progress := some 50, next_stop_id := some "S",
    status_key := "IN_TRANSIT_TO", anchor_progress := some 50,
    anchor_ts := none, target_ts := none, is_stopped := false }

/-- Second counterexample snapshot: server 51 (non-decreasing), same segment. -/
def mX3b : Model :=
  { server_progress := some 51, next_stop_id := some "S",
    status_key := "IN_TRANSIT_TO", anchor_progress := some 51,
    anchor_ts := none, target_ts := none, is_stopped := false }

/-- Engine state after accepting `mX3a` at t = 0. -/
def stA3 : TrainAuto :=
  { anchorProgress := some 50, anchorTs := some 0, targetTs := some 30000,
    progressSlopePerMs := some (1 / 600), progressCeil := some 95,
    inferredProgress := some 50, serverProgress := some 50,
    lastStopId := some "S", baseInterval := 30000 }

/-- Engine state after the tick at t = 30000 (display has reached the 95
ceiling while the server reports 51). -/
def stA3b : TrainAuto := { stA3 with inferredProgress := some 95 }

/-- Engine state after accepting `mX3b` at t = 30000: the correction branch
pulls the anchor back to 81.8. -/
def stB3 : TrainAuto :=
  { anchorProgress := some (409 / 5), anchorTs := some 30000, targetTs := some 60000,
    progressSlopePerMs := some (91 / 150000), progressCeil := some 95,
    inferredProgress := some (409 / 5), serverProgress := some 51,
    lastStopId := some "S", baseInterval := 30000 }

/-- C3 counterexample: two snapshots with non-decreasing server progress
(50 then 51) on the same segment, with one animation tick in between, publish
the sequence 50, 95, 81.8 — the displayed value jumps backward after the
second snapshot because the local extrapolation had overshot by more than the
dead-band. -/
theorem monotonic_display_cex :
    (publishedList initTrainAuto
        [EngineEvent.snap mX3a 0, EngineEvent.tick 30000, EngineEvent.snap mX3b 30000] =
      [some 50, some 95, some (409 / 5)] ∧
      rawAnchorProgress mX3a = 50 ∧ rawAnchorProgress mX3b = 51 ∧ (50 : ℚ) ≤ 51 ∧
      mX3a.next_stop_id = some "S" ∧ mX3b.next_stop_id = some "S" ∧
      jsToUpperCase mX3a.status_key ≠ "STOPPED_AT" ∧
      jsToUpperCase mX3b.status_key ≠ "STOPPED_AT" ∧
      (409 / 5 : ℚ) < 95) := by
  have hsT : (jsToUpperCase "IN_TRANSIT_TO" == "STOPPED_AT") = false := by decide
  have hsM : (jsToUpperCase "IN_TRANSIT_TO" == "IN_TRANSIT_TO") = true := by decide
  have hstep1 : updateProgressInference initTrainAuto mX3a 0 = (some 50, stA3) := by
    norm_num [updateProgressInference, inferProgressAt, initTrainAuto, mX3a, stA3,
      clampProgress, segmentChanged, rawAnchorProgress, reconcileAnchor,
      anchorTsMsOf, targetTsMsOf, slopeFor, TRAIN_DETAIL_INTERVALS,
      PROGRESS_MIN_SLOPE_PPS, hsT, hsM, max_def, min_def]
  have hstep2 : inferProgressAt stA3 30000 = (some 95, stA3b) := by
    norm_num [inferProgressAt, stA3, stA3b, clampProgress, max_def, min_def]
  have hstep3 : updateProgressInference stA3b mX3b 30000 = (some (409 / 5), stB3) := by
    norm_num [updateProgressInference, inferProgressAt, stA3b, stA3, mX3b, stB3,
      clampProgress, segmentChanged, rawAnchorProgress, reconcileAnchor,
      anchorTsMsOf, targetTsMsOf, slopeFor, TRAIN_DETAIL_INTERVALS,
      PROGRESS_MIN_SLOPE_PPS, hsT, hsM, max_def, min_def]
  refine ⟨?_, rfl, rfl, by norm_num, rfl, rfl, by decide, by decide, by norm_num⟩
  simp only [publishedList, engineStep]
  rw [hstep1]
  simp only []
  rw [hstep2]
  simp only []
  rw [hstep3]

/-! ## C6: lemmas about `haversineM` -/

theorem atan2_nonneg {y x : ℝ} (hy : 0 ≤ y) (hx : 0 ≤ x) : 0 ≤ atan2 y x := by
  unfold atan2
  rcases lt_or_eq_of_le hx with hx' | hx'
  · rw [if_pos hx']
    have := Real.arctan_strictMono.monotone (div_nonneg hy hx'.le)
    rwa [Real.arctan_zero] at this
  · rw [if_neg (by rw [← hx']; exact lt_irrefl 0), if_neg (by rw [← hx']; exact lt_irrefl 0)]
    rcases lt_or_eq_of_le hy with hy' | hy'
    · rw [if_pos hy']
      positivity
    · rw [if_neg (by rw [← hy']; exact lt_irrefl 0), if_neg (by rw [← hy']; exact lt_irrefl 0)]

theorem haversineM_nonneg (lat1 lon1 lat2 lon2 : ℝ) :
    0 ≤ haversineM lat1 lon1 lat2 lon2 := by
  have h : ∀ A : ℝ, 0 ≤ atan2 (Real.sqrt A) (Real.sqrt (1 - A)) := fun A =>
    atan2_nonneg (Real.sqrt_nonneg _) (Real.sqrt_nonneg _)
  unfold haversineM
  simp only []
  have := h (Real.sin (toRad (lat2 - lat1) / 2) ^ 2 +
    Real.cos (toRad lat1) * Real.cos (toRad lat2) * Real.sin (toRad (lon2 - lon1) / 2) ^ 2)
  linarith

theorem haversineM_self (lat lon : ℝ) : haversineM lat lon lat lon = 0 := by
  unfold haversineM toRad atan2
  simp [Real.sqrt_one, Real.arctan_zero]

/-- On the equator (`lat = 0`), `haversineM` is exactly `R * |Δlon|` in
radians, provided `|Δlon| < 180`. -/
theorem haversineM_equator {l1 l2 : ℝ} (h : |l2 - l1| < 180) :
    haversineM 0 l1 0 l2 = 6371000 * (|l2 - l1| * Real.pi / 180) := by
  have hpi := Real.pi_pos
  unfold haversineM toRad
  simp only [sub_self, zero_mul, zero_div, Real.sin_zero, Real.cos_zero,
    one_mul, zero_add, ne_eq, OfNat.ofNat_ne_zero, not_false_eq_true, zero_pow]
  set th : ℝ := (l2 - l1) * Real.pi / 180 / 2 with hth
  have habs : |th| = |l2 - l1| * Real.pi / 360 := by
    rw [hth, abs_div, abs_div, abs_mul, abs_of_pos hpi,
      show |(180 : ℝ)| = 180 from abs_of_pos (by norm_num),
      show |(2 : ℝ)| = 2 from abs_of_pos (by norm_num)]
    ring
  have hlt : |th| < Real.pi / 2 := by
    rw [habs]
    nlinarith [mul_pos (sub_pos.mpr h) hpi]
  have hgt : -(Real.pi / 2) < th ∧ th < Real.pi / 2 := abs_lt.mp hlt
  have hcos : 0 < Real.cos th := Real.cos_pos_of_mem_Ioo ⟨hgt.1, hgt.2⟩
  have hs1 : Real.sqrt (Real.sin th ^ 2) = |Real.sin th| := Real.sqrt_sq_eq_abs _
  have hs2 : Real.sqrt (1 - Real.sin th ^ 2) = Real.cos th := by
    rw [← Real.cos_sq', Real.sqrt_sq_eq_abs, abs_of_pos hcos]
  have hsin : |Real.sin th| = Real.sin |th| := by
    rcases le_or_lt 0 th with h1 | h1
    · rw [abs_of_nonneg h1,
        abs_of_nonneg (Real.sin_nonneg_of_nonneg_of_le_pi h1 (by linarith [hgt.2]))]
    · have hsle : Real.sin th ≤ 0 :=
        Real.sin_nonpos_of_nonnpos_of_neg_pi_le h1.le (by linarith [hgt.1])
      rw [abs_of_neg h1, Real.sin_neg, abs_of_nonpos hsle]
  rw [hs1, hs2]
  unfold atan2
  rw [if_pos hcos, hsin, ← Real.cos_abs th, ← Real.tan_eq_sin_div_cos,
    Real.arctan_tan (by linarith [abs_nonneg th]) hlt]
  rw [habs]
  ring

/-! ## C6: lemmas about the route index -/

theorem cumLengthsFrom_length : ∀ (p : ℝ) (a : Pt) (l : List Pt),
    (cumLengthsFrom p a l).length = l.length
  | _, _, [] => rfl
  | p, a, b :: rest => by
      unfold cumLengthsFrom
      simp [cumLengthsFrom_length _ b rest]

theorem cumLengthsOf_length (a : Pt) (rest : List Pt) :
    (cumLengthsOf (a :: rest)).length = (a :: rest).length := by
  unfold cumLengthsOf
  simp [cumLengthsFrom_length 0 a rest]

theorem cumLengthsOf_head (coords : List Pt) : (cumLengthsOf coords).getD 0 0 = 0 := by
  unfold cumLengthsOf
  rfl

theorem getLastD_eq_getD : ∀ (l : List ℝ), l ≠ [] → ∀ d : ℝ,
    l.getLastD d = l.getD (l.length - 1) 0
  | [], h, _ => absurd rfl h
  | [a], _, d => rfl
  | a :: b :: l, _, d => by
      rw [List.getLastD_cons, getLastD_eq_getD (b :: l) (by simp) a]
      simp [List.getD_cons_succ]

theorem bracketLoop_spec (len : List ℝ) (target : ℝ) :
    ∀ (k i : ℕ), len.length - 1 - i ≤ k →
      (i ≤ bracketLoop len target i ∧
        (i ≤ len.length - 1 → bracketLoop len target i ≤ len.length - 1) ∧
        (bracketLoop len target i = i ∨
          len.getD (bracketLoop len target i) 0 < target) ∧
        (¬ bracketLoop len target i < len.length - 1 ∨
          target ≤ len.getD (bracketLoop len target i + 1) 0)) := by
  intro k
  induction k with
  | zero =>
      intro i hk
      rw [bracketLoop]
      have hno : ¬ (i < len.length - 1 ∧ len.getD (i + 1) 0 < target) := by
        intro hcon
        omega
      rw [dif_neg hno]
      exact ⟨le_rfl, fun h => h, Or.inl rfl, Or.inl (by omega)⟩
  | succ k ih =>
      intro i hk
      rw [bracketLoop]
      by_cases h : i < len.length - 1 ∧ len.getD (i + 1) 0 < target
      · rw [dif_pos h]
        obtain ⟨h1, h1', h2, h3⟩ := ih (i + 1) (by omega)
        refine ⟨by omega, fun _ => h1' (by omega), ?_, h3⟩
        rcases h2 with h2 | h2
        · right
          rw [h2]
          exact h.2
        · exact Or.inr h2
      · rw [dif_neg h]
        push_neg at h
        refine ⟨le_rfl, fun hle => hle, Or.inl rfl, ?_⟩
        by_cases hlt : i < len.length - 1
        · exact Or.inr (h hlt)
        · exact Or.inl hlt

theorem projSegment_err_nonneg (ctx : RouteCtx) (p : Pt) (i : ℕ) :
    0 ≤ (projSegment ctx p i).err :=
  haversineM_nonneg _ _ _ _

theorem clamp01_eq_self {s : ℝ} (h0 : 0 ≤ s) (h1 : s ≤ 1) : clamp01 s = s := by
  unfold clamp01
  rw [min_eq_right h1, max_eq_right h0]

/-- The projection loop body evaluated at a point that lies on segment `i`
(the linear interpolation of the segment's endpoints at parameter `s`):
the foot is the point itself, the residual is 0, and the distance-along-path
is `cumLengths[i] + segLen * s`. -/
theorem projSegment_self (ctx : RouteCtx) (i : ℕ) (s : ℝ) (hs0 : 0 ≤ s) (hs1 : s ≤ 1)
    (hden : 0 < segDenom ctx i) :
    ((projSegment ctx ((ctx.coords.getD i (0, 0)).1 +
        ((ctx.coords.getD (i + 1) (0, 0)).1 - (ctx.coords.getD i (0, 0)).1) * s,
      (ctx.coords.getD i (0, 0)).2 +
        ((ctx.coords.getD (i + 1) (0, 0)).2 - (ctx.coords.getD i (0, 0)).2) * s) i).err = 0 ∧
      (projSegment ctx ((ctx.coords.getD i (0, 0)).1 +
          ((ctx.coords.getD (i + 1) (0, 0)).1 - (ctx.coords.getD i (0, 0)).1) * s,
        (ctx.coords.getD i (0, 0)).2 +
          ((ctx.coords.getD (i + 1) (0, 0)).2 - (ctx.coords.getD i (0, 0)).2) * s) i).distance =
        ctx.cumLengths.getD i 0 + segLenAt ctx i * s) := by
  have hden' : segDenom ctx i ≠ 0 := ne_of_gt hden
  unfold segDenom at hden hden'
  unfold projSegment projectFraction segLenAt
  simp only []
  have hfrac : ¬ (((ctx.coords.getD (i + 1) (0, 0)).1 - (ctx.coords.getD i (0, 0)).1) *
        ((ctx.coords.getD (i + 1) (0, 0)).1 - (ctx.coords.getD i (0, 0)).1) +
      ((ctx.coords.getD (i + 1) (0, 0)).2 - (ctx.coords.getD i (0, 0)).2) *
        ((ctx.coords.getD (i + 1) (0, 0)).2 - (ctx.coords.getD i (0, 0)).2)) ≤ 0 :=
    not_le.mpr hden
  rw [if_neg hfrac]
  have harg : ((ctx.coords.getD i (0, 0)).1 +
        ((ctx.coords.getD (i + 1) (0, 0)).1 - (ctx.coords.getD i (0, 0)).1) * s -
        (ctx.coords.getD i (0, 0)).1) *
        ((ctx.coords.getD (i + 1) (0, 0)).1 - (ctx.coords.getD i (0, 0)).1) +
      ((ctx.coords.getD i (0, 0)).2 +
        ((ctx.coords.getD (i + 1) (0, 0)).2 - (ctx.coords.getD i (0, 0)).2) * s -
        (ctx.coords.getD i (0, 0)).2) *
        ((ctx.coords.getD (i + 1) (0, 0)).2 - (ctx.coords.getD i (0, 0)).2) =
      s * (((ctx.coords.getD (i + 1) (0, 0)).1 - (ctx.coords.getD i (0, 0)).1) *
        ((ctx.coords.getD (i + 1) (0, 0)).1 - (ctx.coords.getD i (0, 0)).1) +
      ((ctx.coords.getD (i + 1) (0, 0)).2 - (ctx.coords.getD i (0, 0)).2) *
        ((ctx.coords.getD (i + 1) (0, 0)).2 - (ctx.coords.getD i (0, 0)).2)) := by ring
  rw [harg, mul_div_assoc, div_self hden', mul_one, clamp01_eq_self hs0 hs1]
  constructor
  · have hfoot1 : (ctx.coords.getD i (0, 0)).1 +
        ((ctx.coords.getD (i + 1) (0, 0)).1 - (ctx.coords.getD i (0, 0)).1) * s -
        (ctx.coords.getD i (0, 0)).1 -
        ((ctx.coords.getD (i + 1) (0, 0)).1 - (ctx.coords.getD i (0, 0)).1) * s = 0 := by
      ring
    rw [show (ctx.coords.getD i (0, 0)).2 +
          ((ctx.coords.getD (i + 1) (0, 0)).2 - (ctx.coords.getD i (0, 0)).2) * s =
        (ctx.coords.getD i (0, 0)).2 +
          ((ctx.coords.getD (i + 1) (0, 0)).2 - (ctx.coords.getD i (0, 0)).2) * s from rfl]
    exact haversineM_self _ _
  · rfl

theorem projectFold_append (ctx : RouteCtx) (p : Pt) (l1 : List ℕ) :
    ∀ (l2 : List ℕ) (best : Option RouteProj),
      projectFold ctx p best (l1 ++ l2) = projectFold ctx p (projectFold ctx p best l1) l2 := by
  induction l1 with
  | nil => intro l2 best; rfl
  | cons i l1 ih =>
      intro l2 best
      rw [List.cons_append]
      show projectFold ctx p _ (l1 ++ l2) = _
      rw [ih]
      rfl

theorem projectFold_pos (ctx : RouteCtx) (p : Pt) (l : List ℕ) :
    ∀ (best : Option RouteProj),
      (∀ b, best = some b → 0 < b.err) →
      (∀ j ∈ l, 0 < (projSegment ctx p j).err) →
      ∀ b, projectFold ctx p best l = some b → 0 < b.err := by
  induction l with
  | nil => intro best hbest _ b hb; exact hbest b hb
  | cons i l ih =>
      intro best hbest hl b hb
      show 0 < b.err
      refine ih _ ?_ (fun j hj => hl j (List.mem_cons_of_mem _ hj)) b hb
      intro b' hb'
      rcases best with _ | b0
      · simp only [projectFold] at hb'
        obtain rfl := (Option.some.injEq _ _).mp hb'
        exact hl i (List.mem_cons_self i l)
      · simp only [projectFold] at hb'
        by_cases hc : (projSegment ctx p i).err < b0.err
        · rw [if_pos hc] at hb'
          obtain rfl := (Option.some.injEq _ _).mp hb'
          exact hl i (List.mem_cons_self i l)
        · rw [if_neg hc] at hb'
          obtain rfl := (Option.some.injEq _ _).mp hb'
          exact hbest _ rfl

theorem projectFold_keep (ctx : RouteCtx) (p : Pt) (l : List ℕ) :
    ∀ (b : RouteProj), b.err = 0 →
      (∀ j ∈ l, 0 ≤ (projSegment ctx p j).err) →
      projectFold ctx p (some b) l = some b := by
  induction l with
  | nil => intro b _ _; rfl
  | cons i l ih =>
      intro b hb hl
      have hcand : ¬ (projSegment ctx p i).err < b.err := by
        rw [hb]
        exact not_lt.mpr (hl i (List.mem_cons_self i l))
      simp only [projectFold]
      rw [if_neg hcand]
      exact ih b hb (fun j hj => hl j (List.mem_cons_of_mem _ hj))

theorem projectFold_found (ctx : RouteCtx) (p : Pt) (i : ℕ) (l1 l2 : List ℕ)
    (h1 : ∀ j ∈ l1, 0 < (projSegment ctx p j).err)
    (hi : (projSegment ctx p i).err = 0) :
    projectFold ctx p none (l1 ++ i :: l2) = some (projSegment ctx p i) := by
  have h2 : ∀ j ∈ l2, 0 ≤ (projSegment ctx p j).err :=
    fun j _ => projSegment_err_nonneg ctx p j
  rw [projectFold_append]
  rcases hBeq : projectFold ctx p none l1 with _ | b
  · show projectFold ctx p (some (projSegment ctx p i)) l2 = _
    exact projectFold_keep ctx p l2 _ hi h2
  · have hb : 0 < b.err := projectFold_pos ctx p l1 none (by intro b' hb'; cases hb') h1 b hBeq
    show projectFold ctx p
        (if (projSegment ctx p i).err < b.err then some (projSegment ctx p i) else some b) l2 = _
    rw [if_pos (by rw [hi]; exact hb)]
    exact projectFold_keep ctx p l2 _ hi h2

theorem cumLengthsOf_ne_nil (coords : List Pt) : cumLengthsOf coords ≠ [] := by
  unfold cumLengthsOf
  simp

/-- C6 (amended): on a route index built from at least 2 points, for every
distance `d` in `[0, totalLength]` whose bracketing segment is non-degenerate
(positive planar denominator and positive arc length) and whose interpolated
point does not lie on any *earlier* segment (each earlier residual is
positive), projecting the point returned by `coordAtDistance` back with
`projectOnRoute` returns exactly the distance `d` — the round-trip is exact,
in particular at segment boundaries.  Without the no-earlier-segment proviso
the property fails badly on self-overlapping paths (see the counterexample,
where the error is half the path length). -/
theorem roundtrip_exact (coords : List Pt) (ctx : RouteCtx) (d : ℝ) (p : Pt)
    (hb : buildRouteCtx coords = some ctx)
    (hd0 : 0 ≤ d) (hdT : d ≤ ctx.totalLength)
    (hp : coordAtDistance ctx d = some p)
    (hden : 0 < segDenom ctx (bracketIndex ctx d))
    (hsg : 0 < segLenAt ctx (bracketIndex ctx d))
    (hearly : ∀ j < bracketIndex ctx d, 0 < (projSegment ctx p j).err) :
    ∃ pr, projectOnRoute ctx p = some pr ∧ pr.distance = d ∧
      pr.idx = bracketIndex ctx d := by
  have h2 : ¬ coords.length < 2 := by
    intro h
    rw [buildRouteCtx, if_pos h] at hb
    exact Option.noConfusion hb
  rw [buildRouteCtx, if_neg h2] at hb
  obtain rfl := (Option.some.injEq _ _).mp hb
  obtain ⟨a0, rest, rfl⟩ : ∃ a0 rest, coords = a0 :: rest := by
    cases coords with
    | nil => simp at h2
    | cons a0 rest => exact ⟨a0, rest, rfl⟩
  set coords := a0 :: rest with hcoords
  set len := cumLengthsOf coords with hlen
  set n := coords.length with hn
  have hlenlen : len.length = n := cumLengthsOf_length a0 rest
  have hn2 : 2 ≤ n := not_lt.mp h2
  have htot : (⟨coords, len, len.getLastD 0⟩ : RouteCtx).totalLength =
      len.getD (len.length - 1) 0 :=
    getLastD_eq_getD len (hlen ▸ cumLengthsOf_ne_nil coords) 0
  have hdT' : d ≤ len.getD (len.length - 1) 0 := htot ▸ hdT
  have htarget : max 0 (min d (⟨coords, len, len.getLastD 0⟩ : RouteCtx).totalLength) = d := by
    rw [min_eq_left hdT, max_eq_right hd0]
  have htargetR : max 0 (min d (len.getLastD 0)) = d := htarget
  obtain ⟨hsp1, hsp2, hsp3, hsp4⟩ :=
    bracketLoop_spec len d len.length 0 (by omega)
  set i0 := bracketLoop len d 0 with hi0
  have hi0le : i0 ≤ len.length - 1 := hsp2 (by omega)
  have hi0ne : i0 ≠ len.length - 1 := by
    intro heq
    rcases hsp3 with h3 | h3
    · omega
    · rw [heq] at h3
      linarith [hdT']
  have hi0lt : i0 < n - 1 := by omega
  have hbi : bracketIndex ⟨coords, len, len.getLastD 0⟩ d = i0 := by
    unfold bracketIndex
    simp only []
    rw [htargetR, ← hn, ← hi0, if_neg (by omega : ¬ n - 1 ≤ i0)]
  have hlow : len.getD i0 0 ≤ d := by
    rcases hsp3 with h3 | h3
    · rw [h3, hlen, cumLengthsOf_head]
      exact hd0
    · exact h3.le
  have hhigh : d ≤ len.getD (i0 + 1) 0 := by
    rcases hsp4 with h4 | h4
    · omega
    · exact h4
  rw [hbi] at hden hsg hearly
  have hsg' : 0 < len.getD (i0 + 1) 0 - len.getD i0 0 := hsg
  -- extract the point from coordAtDistance
  rw [coordAtDistance] at hp
  rw [if_neg h2] at hp
  simp only [] at hp
  rw [htarget, hbi] at hp
  rw [if_pos hsg'] at hp
  set segT := (d - len.getD i0 0) / (len.getD (i0 + 1) 0 - len.getD i0 0) with hsegT
  have hsegT0 : 0 ≤ segT := div_nonneg (by linarith) (by linarith)
  have hsegT1 : segT ≤ 1 := by
    rw [hsegT, div_le_one hsg']
    linarith
  have hpe := (Option.some.injEq _ _).mp hp
  obtain ⟨herr, hdist⟩ := projSegment_self ⟨coords, len, len.getLastD 0⟩ i0 segT hsegT0 hsegT1 hden
  simp only [] at herr hdist
  rw [hpe] at herr hdist
  refine ⟨projSegment ⟨coords, len, len.getLastD 0⟩ p i0, ?_, ?_, ?_⟩
  · rw [projectOnRoute, if_neg h2]
    obtain ⟨k2, hk2⟩ : ∃ k2, n - 1 = (i0 + 1) + k2 := ⟨n - 1 - (i0 + 1), by omega⟩
    have hrange : List.range (n - 1) =
        List.range i0 ++ i0 :: List.map (fun x => i0 + 1 + x) (List.range k2) := by
      rw [hk2, List.range_add, List.range_succ, List.append_assoc, List.singleton_append]
    rw [show (⟨coords, len, len.getLastD 0⟩ : RouteCtx).coords.length = n from rfl, hrange]
    exact projectFold_found _ _ i0 _ _
      (fun j hj => hearly j (List.mem_range.mp hj)) herr
  · rw [hdist]
    unfold segLenAt
    simp only []
    have hne : len.getD (i0 + 1) 0 - len.getD i0 0 ≠ 0 := ne_of_gt hsg'
    rw [hsegT, ← mul_div_assoc, mul_div_cancel_left₀ _ hne]
    ring
  · rw [hbi]
    rfl

/-! ## C6: concrete equatorial routes -/

noncomputable section

/-- Arc length of one degree of longitude on the equator under `haversineM`. -/
def oneDegM : ℝ := 6371000 * (Real.pi / 180)

/-- A straight equatorial path of two points one degree apart. -/
def demoCoords : List Pt := [(0, 0), (1, 0)]

/-- The route index `buildRouteCtx` produces for `demoCoords`. -/
def demoCtx : RouteCtx := ⟨demoCoords, [0, oneDegM], oneDegM⟩

/-- A degenerate doubling-back equatorial path: out one degree and back. -/
def cexCoords : List Pt := [(0, 0), (1, 0), (0, 0)]

/-- The route index `buildRouteCtx` produces for `cexCoords`. -/
def cexCtx : RouteCtx := ⟨cexCoords, [0, oneDegM, 2 * oneDegM], 2 * oneDegM⟩

end

theorem oneDegM_pos : 0 < oneDegM := by
  unfold oneDegM
  positivity

theorem haversineM_zero_one : haversineM 0 0 0 1 = oneDegM := by
  rw [haversineM_equator (by norm_num), show |(1 : ℝ) - 0| = 1 by norm_num]
  unfold oneDegM
  ring

theorem haversineM_one_zero : haversineM 0 1 0 0 = oneDegM := by
  rw [haversineM_equator (by norm_num), show |(0 : ℝ) - 1| = 1 by norm_num]
  unfold oneDegM
  ring

theorem buildRouteCtx_demo : buildRouteCtx demoCoords = some demoCtx := by
  have hcl : cumLengthsOf demoCoords = [0, oneDegM] := by
    simp [cumLengthsOf, demoCoords, cumLengthsFrom, haversineM_zero_one]
  rw [buildRouteCtx, if_neg (by simp [demoCoords])]
  simp only []
  rw [hcl]
  rfl

theorem buildRouteCtx_cex : buildRouteCtx cexCoords = some cexCtx := by
  have hcl : cumLengthsOf cexCoords = [0, oneDegM, 2 * oneDegM] := by
    simp [cumLengthsOf, cexCoords, cumLengthsFrom, haversineM_zero_one,
      haversineM_one_zero, two_mul]
  rw [buildRouteCtx, if_neg (by simp [cexCoords])]
  simp only []
  rw [hcl]
  rfl

theorem bracketIndex_demo : bracketIndex demoCtx (oneDegM / 2) = 0 := by
  have hK := oneDegM_pos
  have hbl : bracketLoop [0, oneDegM] (oneDegM / 2) 0 = 0 := by
    rw [bracketLoop, dif_neg]
    intro hcon
    have := hcon.2
    simp only [List.getD_cons_succ, List.getD_cons_zero] at this
    linarith
  unfold bracketIndex demoCtx demoCoords
  simp only [List.length_cons, List.length_nil]
  rw [min_eq_left (by linarith), max_eq_right (by linarith), hbl]
  norm_num

theorem coordAtDistance_demo :
    coordAtDistance demoCtx (oneDegM / 2) = some ((1 : ℝ) / 2, 0) := by
  have hK := oneDegM_pos
  rw [coordAtDistance, if_neg (by simp [demoCtx, demoCoords])]
  simp only []
  rw [bracketIndex_demo]
  unfold demoCtx demoCoords
  simp only [List.getD_cons_zero, List.getD_cons_succ]
  rw [min_eq_left (by linarith), max_eq_right (by linarith)]
  rw [if_pos (by linarith : (0 : ℝ) < oneDegM - 0)]
  have h1 : (0 : ℝ) + (1 - 0) * ((oneDegM / 2 - 0) / (oneDegM - 0)) = 1 / 2 := by
    rw [sub_zero, sub_zero]
    field_simp
    ring
  have h2 : (0 : ℝ) + (0 - 0) * ((oneDegM / 2 - 0) / (oneDegM - 0)) = 0 := by ring
  rw [h1, h2]

theorem bracketIndex_cex : bracketIndex cexCtx (3 / 2 * oneDegM) = 1 := by
  have hK := oneDegM_pos
  have hbl : bracketLoop [0, oneDegM, 2 * oneDegM] (3 / 2 * oneDegM) 0 = 1 := by
    rw [bracketLoop, dif_pos (by
      constructor
      · simp
      · simp only [List.getD_cons_succ, List.getD_cons_zero]
        linarith)]
    rw [bracketLoop, dif_neg]
    intro hcon
    have := hcon.2
    simp only [List.getD_cons_succ, List.getD_cons_zero] at this
    linarith
  unfold bracketIndex cexCtx cexCoords
  simp only [List.length_cons, List.length_nil]
  rw [min_eq_left (by linarith), max_eq_right (by linarith), hbl]
  norm_num

theorem coordAtDistance_cex :
    coordAtDistance cexCtx (3 / 2 * oneDegM) = some ((1 : ℝ) / 2, 0) := by
  have hK := oneDegM_pos
  rw [coordAtDistance, if_neg (by simp [cexCtx, cexCoords])]
  simp only []
  rw [bracketIndex_cex]
  unfold cexCtx cexCoords
  simp only [List.getD_cons_zero, List.getD_cons_succ]
  rw [min_eq_left (by linarith), max_eq_right (by linarith)]
  rw [if_pos (by linarith : (0 : ℝ) < 2 * oneDegM - oneDegM)]
  have h1 : (1 : ℝ) + (0 - 1) * ((3 / 2 * oneDegM - oneDegM) / (2 * oneDegM - oneDegM)) =
      1 / 2 := by
    have hne : (2 : ℝ) * oneDegM - oneDegM ≠ 0 := by
      intro h0
      apply absurd hK
      intro _
      nlinarith
    field_simp
    ring
  have h2 : (0 : ℝ) + (0 - 0) * ((3 / 2 * oneDegM - oneDegM) / (2 * oneDegM - oneDegM)) = 0 := by
    ring
  rw [h1, h2]

theorem roundtrip_exact_witness :
    (buildRouteCtx demoCoords = some demoCtx ∧
      0 ≤ oneDegM / 2 ∧ oneDegM / 2 ≤ demoCtx.totalLength ∧
      coordAtDistance demoCtx (oneDegM / 2) = some ((1 : ℝ) / 2, 0) ∧
      0 < segDenom demoCtx (bracketIndex demoCtx (oneDegM / 2)) ∧
      0 < segLenAt demoCtx (bracketIndex demoCtx (oneDegM / 2)) ∧
      (∀ j < bracketIndex demoCtx (oneDegM / 2),
        0 < (projSegment demoCtx ((1 : ℝ) / 2, 0) j).err) ∧
      ∃ pr, projectOnRoute demoCtx ((1 : ℝ) / 2, 0) = some pr ∧
        pr.distance = oneDegM / 2 ∧ pr.idx = bracketIndex demoCtx (oneDegM / 2)) := by
  have hK := oneDegM_pos
  have hd0 : (0 : ℝ) ≤ oneDegM / 2 := by linarith
  have hdT : oneDegM / 2 ≤ demoCtx.totalLength := by
    show oneDegM / 2 ≤ oneDegM
    linarith
  have hden : 0 < segDenom demoCtx (bracketIndex demoCtx (oneDegM / 2)) := by
    rw [bracketIndex_demo]
    unfold segDenom demoCtx demoCoords
    simp only [List.getD_cons_zero, List.getD_cons_succ]
    norm_num
  have hsg : 0 < segLenAt demoCtx (bracketIndex demoCtx (oneDegM / 2)) := by
    rw [bracketIndex_demo]
    unfold segLenAt demoCtx
    simp only [List.getD_cons_zero, List.getD_cons_succ]
    linarith
  have hearly : ∀ j < bracketIndex demoCtx (oneDegM / 2),
      0 < (projSegment demoCtx ((1 : ℝ) / 2, 0) j).err := by
    intro j hj
    rw [bracketIndex_demo] at hj
    exact absurd hj (Nat.not_lt_zero j)
  exact ⟨buildRouteCtx_demo, hd0, hdT, coordAtDistance_demo, hden, hsg, hearly,
    roundtrip_exact demoCoords demoCtx (oneDegM / 2) ((1 : ℝ) / 2, 0)
      buildRouteCtx_demo hd0 hdT coordAtDistance_demo hden hsg hearly⟩

theorem projSegment_cex_zero_err :
    (projSegment cexCtx ((1 : ℝ) / 2, 0) 0).err = 0 := by
  unfold projSegment projectFraction cexCtx cexCoords
  simp only [List.getD_cons_zero, List.getD_cons_succ]
  rw [if_neg (by norm_num)]
  norm_num [clamp01, min_def, max_def]
  exact haversineM_self _ _

theorem projSegment_cex_zero_distance :
    (projSegment cexCtx ((1 : ℝ) / 2, 0) 0).distance = oneDegM / 2 := by
  unfold projSegment projectFraction cexCtx cexCoords
  simp only [List.getD_cons_zero, List.getD_cons_succ]
  rw [if_neg (by norm_num)]
  norm_num [clamp01, min_def, max_def]
  ring

theorem projectOnRoute_cex :
    projectOnRoute cexCtx ((1 : ℝ) / 2, 0) =
      some (projSegment cexCtx ((1 : ℝ) / 2, 0) 0) := by
  rw [projectOnRoute, if_neg (by simp [cexCtx, cexCoords])]
  rw [show cexCtx.coords.length - 1 = 2 from by simp [cexCtx, cexCoords]]
  rw [show List.range 2 = [0, 1] from rfl]
  simp only [projectFold]
  rw [if_neg (by
    rw [projSegment_cex_zero_err]
    exact not_lt.mpr (projSegment_err_nonneg _ _ _))]

/-- C6 counterexample: on the doubling-back equatorial path
`[(0,0), (1,0), (0,0)]` (a legitimate ≥2-point path), the point at distance
`3/2 · oneDegM` (three quarters of the total length) projects back to distance
`oneDegM / 2` — the round-trip error is half the total path length, because
`projectOnRoute` ties break to the first overlapping segment. -/
theorem roundtrip_cex :
    (buildRouteCtx cexCoords = some cexCtx ∧
      0 ≤ 3 / 2 * oneDegM ∧ 3 / 2 * oneDegM ≤ cexCtx.totalLength ∧
      coordAtDistance cexCtx (3 / 2 * oneDegM) = some ((1 : ℝ) / 2, 0) ∧
      ∃ pr, projectOnRoute cexCtx ((1 : ℝ) / 2, 0) = some pr ∧
        pr.distance = oneDegM / 2 ∧
        |pr.distance - 3 / 2 * oneDegM| = cexCtx.totalLength / 2 ∧
        0 < cexCtx.totalLength) := by
  have hK := oneDegM_pos
  refine ⟨buildRouteCtx_cex, by linarith, ?_, coordAtDistance_cex,
    projSegment cexCtx ((1 : ℝ) / 2, 0) 0, projectOnRoute_cex,
    projSegment_cex_zero_distance, ?_, ?_⟩
  · show 3 / 2 * oneDegM ≤ 2 * oneDegM
    linarith
  · rw [projSegment_cex_zero_distance,
      show oneDegM / 2 - 3 / 2 * oneDegM = -oneDegM by ring, abs_neg,
      abs_of_pos hK]
    show oneDegM = 2 * oneDegM / 2
    ring
  · show (0 : ℝ) < 2 * oneDegM
    linarith

end DondeEstaMiTren
